import Mathlib

/-!
# InventarioNeón: the product API of `servidor.js`

A shallow embedding of the four Express handlers of `servidor.js`
(`POST`, `GET`, `PUT`, `DELETE` on `/api/products`), of the multer disk
storage they use for the `foto` upload, and of the calls they make to the
Mongoose model `Product`.

The handlers are translated from `servidor.js`. Mongoose, the MongoDB server,
multer and the JavaScript runtime are not part of the repository; what the
handlers need of them is modelled as follows.

* A request body is a JSON value: the object of its fields, whose values are
  scalars, arrays and objects, or (for a JSON request) an array. In the list
  of the fields of an object, a field that occurs several times stands for a
  repeated multipart field, which reaches the handler as one array.
* A JavaScript number is the rational it denotes, or one of the two
  infinities; `NaN` is what the number cast rejects. The handlers do no
  arithmetic, and how `Number` reads a string is part of `Runtime`.
* `Number(s)`, `n.toString()` and the `ObjectId` cast are fields of `Runtime`.
* An update document made only of plain fields, directly or under one `$set`,
  is cast and applied here (`castSet`, `applyUpdate`). What Mongoose and the
  server do with any other update document (the other update operators,
  dotted keys, the library-managed paths `createdAt`, `updatedAt` and `__v`,
  nested objects, an array as body) is the field `castOther` of `Runtime`:
  the theorems hold whatever it is, and those that need an update made of
  plain fields say so in a hypothesis.
* The server keeps `_id` fixed and keeps the unique indexes on `_id` and
  `codigo` for every update, whichever way the update was cast.
* The store is the list of `Product` documents in insertion order together
  with the names of the files in `uploads/`. The clock readings and the fresh
  `_id` of a request are in `Env`. The version key `__v` is not stored.
-/

namespace InventarioNeon

/-! ## Values, documents, requests -/

/-- A JavaScript number other than `NaN`. -/
inductive JNum where
  | fin (q : ℚ)
  | posInf
  | negInf
  deriving DecidableEq

instance : Coe ℚ JNum := ⟨JNum.fin⟩

instance (n : Nat) : OfNat JNum n := ⟨JNum.fin n⟩

/-- A value of a request body. -/
inductive JVal where
  | null
  | bool (b : Bool)
  | num (x : JNum)
  | str (s : String)
  | arr (xs : List JVal)
  | obj (kvs : List (String × JVal))

/-- Whether a value is an object. -/
def JVal.isObj : JVal → Bool
  | .obj _ => true
  | _ => false

/-- The fields of an object; a value that is not an object has none. -/
def JVal.fields : JVal → List (String × JVal)
  | .obj kvs => kvs
  | _ => []

/-- The hexadecimal form of a MongoDB `ObjectId`. -/
abbrev ObjectId := String

/-- Errors thrown by the `Product` model. -/
inductive StoreError where
  | castError
  | validationError
  | duplicateKey
  | invalidUpdate
  | immutableField
  deriving DecidableEq

/-- A stored document of `productSchema` (lines 28-35), with the `_id` and the
two timestamps the schema options add. A path is `none` when it holds `null`
or is missing. -/
structure Product where
  _id : ObjectId
  codigo : Option String
  nombre : Option String
  descripcion : Option String
  cantidad : Option JNum
  precio : Option JNum
  fotoUrl : Option String
  createdAt : Nat
  updatedAt : Nat
  deriving DecidableEq

/-- What the handlers take from the JavaScript runtime, Mongoose and the
MongoDB server without it being fixed here. -/
structure Runtime where
  /-- The value of `Number(s)`, `none` when it is `NaN`. -/
  toNumber : String → Option JNum
  /-- The value of `n.toString()`. -/
  numToString : JNum → String
  /-- The `ObjectId` a non-null value casts to, `none` when the cast throws. -/
  castObjectId : JVal → Option ObjectId
  /-- The treatment of an update document that is not made only of plain
  fields: either it is refused before a document is looked up, or it is
  accepted and, for the write time and the matched document, the server
  refuses the write or the document becomes the one given. -/
  castOther : JVal → Except StoreError (Nat → Product → Except StoreError Product)

/-- The products collection and the names of the files in `uploads/`. -/
structure Store where
  products : List Product
  uploads : List String
  deriving DecidableEq

/-- What a request reads from its environment. -/
structure Env where
  /-- The value of `Date.now()` in the multer `filename` callback (line 46). -/
  uploadTime : Nat
  /-- The value of `Date.now()` in the `POST` handler (line 62). -/
  now : Nat
  /-- The time the model writes into `createdAt` and `updatedAt`. -/
  stamp : Nat
  /-- The `_id` generated for a new document. -/
  freshId : ObjectId

/-- The parts of an HTTP request the handlers read. `file` is the original
name of the file sent in the `foto` field, when there is one. -/
structure Req where
  protocol : String
  host : String
  body : JVal
  file : Option String

/-- The JSON document of a response. -/
inductive Payload where
  | product (p : Product)
  | products (ps : List Product)
  | message (m : String)
  | errorMessage (e : StoreError)
  deriving DecidableEq

/-- Whether the JSON document has a `message` field. -/
def Payload.hasMessage : Payload → Bool
  | .message _ => true
  | .errorMessage _ => true
  | _ => false

/-- A status code and a JSON document. -/
structure Response where
  status : Nat
  body : Payload
  deriving DecidableEq

/-! ## Bodies -/

/-- The property `k` of an object given by its fields, `none` when it is
`undefined`: the value of the field `k`, and the array of its values when the
field is repeated. -/
def fieldOf (kvs : List (String × JVal)) (k : String) : Option JVal :=
  match (kvs.filter (fun kv => decide (kv.1 = k))).map Prod.snd with
  | [] => none
  | [v] => some v
  | vs => some (.arr vs)

/-- The property `body[k]` of a body, `none` when it is `undefined`. -/
def field (body : JVal) (k : String) : Option JVal :=
  fieldOf body.fields k

/-- The fields of an object after the assignment `obj[k] = v`. -/
def setFieldOf (k : String) (v : JVal) (kvs : List (String × JVal)) : List (String × JVal) :=
  (k, v) :: kvs.filter (fun kv => !decide (kv.1 = k))

/-- The body after the assignment `body[k] = v`: on an array the assignment
adds a property that is not an element, and the array is as before. -/
def setField (k : String) (v : JVal) : JVal → JVal
  | .obj kvs => .obj (setFieldOf k v kvs)
  | body => body

/-! ## The Mongoose model: casts and validators -/

/-- The string cast of a schema path of type `String`: `null` stays `null`,
a scalar is converted with `toString()`, an object with a non-empty string
`_id` casts to that `_id`, and an array or any other object is a cast
error. -/
def castString (rt : Runtime) : JVal → Except StoreError (Option String)
  | .null => .ok none
  | .bool b => .ok (some (if b then "true" else "false"))
  | .num x => .ok (some (rt.numToString x))
  | .str s => .ok (some s)
  | .arr _ => .error .castError
  | .obj kvs =>
    match fieldOf kvs "_id" with
    | some (.str s) => if s = "" then .error .castError else .ok (some s)
    | _ => .error .castError

/-- The number cast of a schema path of type `Number`: `null` and the empty
string give `null`, a string or boolean goes through `Number(...)`, and `NaN`,
an array or an object is a cast error. -/
def castNumber (rt : Runtime) : JVal → Except StoreError (Option JNum)
  | .null => .ok none
  | .bool b => .ok (some (if b then 1 else 0))
  | .num x => .ok (some x)
  | .str s =>
    if s = "" then .ok none
    else match rt.toNumber s with
      | some x => .ok (some x)
      | none => .error .castError
  | .arr _ => .error .castError
  | .obj _ => .error .castError

/-- The `required: true` validator of a `String` path. -/
def requiredString : Option String → Bool
  | some s => s.length != 0
  | none => false

/-- The `required: true` validator of a `Number` path. -/
def requiredNumber : Option JNum → Bool
  | some _ => true
  | none => false

/-- The cast of a property that may be `undefined`. -/
def castStringField (rt : Runtime) : Option JVal → Except StoreError (Option String)
  | none => .ok none
  | some v => castString rt v

/-- The cast of a property that may be `undefined`. -/
def castNumberField (rt : Runtime) : Option JVal → Except StoreError (Option JNum)
  | none => .ok none
  | some v => castNumber rt v

/-- The unique index on `codigo` and the one on `_id`: whether a document with
this `_id` or this `codigo` is already stored. -/
def indexConflict (db : List Product) (id : ObjectId) (codigo : Option String) : Bool :=
  db.any (fun p => decide (p._id = id) || decide (p.codigo = codigo))

/-- The document built by `new Product({...})` and written by `save()`
(lines 61-70): the paths are cast, the `required` validators run (a path
that failed its cast is a validation error too), then the document is
inserted under the unique indexes. -/
def save (rt : Runtime) (env : Env) (codigo : String)
    (nombre descripcion cantidad precio : Option JVal) (fotoUrl : String)
    (db : List Product) : Except StoreError Product :=
  match castStringField rt nombre, castStringField rt descripcion,
      castNumberField rt cantidad, castNumberField rt precio with
  | .ok n, .ok d, .ok c, .ok pr =>
    if requiredString (some codigo) && requiredString n && requiredString d
        && requiredNumber c && requiredNumber pr && requiredString (some fotoUrl) then
      if indexConflict db env.freshId (some codigo) then .error .duplicateKey
      else .ok
        { _id := env.freshId, codigo := some codigo, nombre := n, descripcion := d,
          cantidad := c, precio := pr, fotoUrl := some fotoUrl,
          createdAt := env.stamp, updatedAt := env.stamp }
    else .error .validationError
  | _, _, _, _ => .error .validationError

/-! ## The Mongoose model: updates -/

/-- The update operators Mongoose knows; any other key of an update document,
also one that starts with `$`, is a field to set. -/
def updateOperators : List String :=
  ["$currentDate", "$inc", "$min", "$max", "$mul", "$rename", "$set", "$setOnInsert",
    "$unset", "$addToSet", "$pop", "$pull", "$push", "$pullAll", "$bit"]

/-- The paths that Mongoose maintains itself. -/
def managedPaths : List String := ["createdAt", "updatedAt", "__v"]

/-- Whether a key is a plain field name: not an update operator, not a dotted
path, not a path that Mongoose maintains. -/
def plainKey (k : String) : Bool :=
  !updateOperators.contains k && !k.data.contains '.' && !managedPaths.contains k

/-- Whether a field has a plain key and a value that is not an object. -/
def plainEntry (kv : String × JVal) : Bool :=
  plainKey kv.1 && !kv.2.isObj

/-- Whether the fields of an update document are only plain fields, directly
or under one `$set`. -/
def simpleFields (kvs : List (String × JVal)) : Bool :=
  kvs.all (fun kv =>
    plainEntry kv ||
      (decide (kv.1 = "$set") &&
        match kv.2 with
        | .obj inner => inner.all plainEntry
        | _ => false))
  && decide ((kvs.filter (fun kv => decide (kv.1 = "$set"))).length ≤ 1)

/-- Whether an update document is an object made only of plain fields,
directly or under one `$set`. -/
def isSimple : JVal → Bool
  | .obj kvs => simpleFields kvs
  | _ => false

/-- The value the update sets the path `k` to, if it sets it: the field `k`,
and otherwise the field `k` of `$set` (the fields outside `$set` are moved
into it, over what it holds). -/
def setValue (body : JVal) (k : String) : Option JVal :=
  match field body k with
  | some v => some v
  | none =>
    match field body "$set" with
    | some (.obj kvs) => fieldOf kvs k
    | _ => none

/-- The cast update document: for each schema path, `none` when the update
does not set it, `some v` when it sets it to `v`. -/
structure Update where
  _id : Option (Option ObjectId)
  codigo : Option (Option String)
  nombre : Option (Option String)
  descripcion : Option (Option String)
  cantidad : Option (Option JNum)
  precio : Option (Option JNum)
  fotoUrl : Option (Option String)
  deriving DecidableEq

/-- The cast of the `_id` path of an update. -/
def castIdField (rt : Runtime) : Option JVal → Except StoreError (Option (Option ObjectId))
  | none => .ok none
  | some .null => .ok (some none)
  | some v =>
    match rt.castObjectId v with
    | some o => .ok (some (some o))
    | none => .error .castError

/-- The cast of a `Number` path of an update. -/
def castNumberUpdate (rt : Runtime) : Option JVal → Except StoreError (Option (Option JNum))
  | none => .ok none
  | some v =>
    match castNumber rt v with
    | .ok q => .ok (some q)
    | .error e => .error e

/-- The cast of a `String` path of an update. -/
def castStringUpdate (rt : Runtime) : Option JVal → Except StoreError (Option (Option String))
  | none => .ok none
  | some v =>
    match castString rt v with
    | .ok s => .ok (some s)
    | .error e => .error e

/-- The `$set` Mongoose sends for an update document made of plain fields:
each schema path is cast, the keys that are not schema paths are dropped
(strict mode). -/
def castSet (rt : Runtime) (body : JVal) : Except StoreError Update :=
  match castIdField rt (setValue body "_id"), castStringUpdate rt (setValue body "codigo"),
      castStringUpdate rt (setValue body "nombre"),
      castStringUpdate rt (setValue body "descripcion"),
      castNumberUpdate rt (setValue body "cantidad"),
      castNumberUpdate rt (setValue body "precio"),
      castStringUpdate rt (setValue body "fotoUrl") with
  | .ok i, .ok co, .ok n, .ok d, .ok c, .ok pr, .ok f =>
    .ok { _id := i, codigo := co, nombre := n, descripcion := d, cantidad := c,
          precio := pr, fotoUrl := f }
  | _, _, _, _, _, _, _ => .error .castError

/-- The document after `$set` of the update; `updatedAt` is set to the time of
the write, `_id` and `createdAt` are kept. -/
def applyUpdate (u : Update) (stamp : Nat) (p : Product) : Product :=
  { p with
    codigo := u.codigo.getD p.codigo
    nombre := u.nombre.getD p.nombre
    descripcion := u.descripcion.getD p.descripcion
    cantidad := u.cantidad.getD p.cantidad
    precio := u.precio.getD p.precio
    fotoUrl := u.fotoUrl.getD p.fotoUrl
    updatedAt := stamp }

/-- What a cast `$set` does to the matched document: the server refuses to
give `_id` another value, and otherwise sets the paths. -/
def applySet (u : Update) (stamp : Nat) (p : Product) : Except StoreError Product :=
  if u._id.getD (some p._id) ≠ some p._id then .error .immutableField
  else .ok (applyUpdate u stamp p)

/-- The cast of an update document, done before the query runs: an error, or
what the update does to the matched document at the time of the write. -/
def castUpdate (rt : Runtime) (body : JVal) :
    Except StoreError (Nat → Product → Except StoreError Product) :=
  if isSimple body then
    match castSet rt body with
    | .ok u => .ok (applySet u)
    | .error e => .error e
  else rt.castOther body

/-- The collection with the first document of this `_id` replaced. -/
def replaceOne (id : ObjectId) (p' : Product) : List Product → List Product
  | [] => []
  | p :: ps => if p._id = id then p' :: ps else p :: replaceOne id p' ps

/-- The collection with the first document of this `_id` removed. -/
def removeOne (id : ObjectId) : List Product → List Product
  | [] => []
  | p :: ps => if p._id = id then ps else p :: removeOne id ps

/-- The first document of this `_id`. -/
def findById (id : ObjectId) (db : List Product) : Option Product :=
  db.find? (fun p => decide (p._id = id))

/-- The unique index on `codigo` at an update of the document `p` of this
`_id`: whether the update gives `p` another `codigo`, one that another
document holds. -/
def codigoConflict (oid : ObjectId) (p : Product) (c : Option String) (db : List Product) :
    Bool :=
  decide (c ≠ p.codigo) && db.any (fun q => decide (q._id ≠ oid) && decide (q.codigo = c))

/-- The model call `Product.findByIdAndUpdate(id, updateData, { new: true })`:
the id and the update are cast before the query runs; with no matching
document the result is `null`; the server refuses a change of `_id` and a
`codigo` that another document holds; otherwise the updated document is
returned. Update validators are off (the Mongoose default). -/
def findByIdAndUpdate (rt : Runtime) (stamp : Nat) (id : String)
    (updateData : JVal) (db : List Product) :
    Except StoreError (Option Product × List Product) :=
  match rt.castObjectId (.str id) with
  | none => .error .castError
  | some oid =>
    match castUpdate rt updateData with
    | .error e => .error e
    | .ok change =>
      match findById oid db with
      | none => .ok (none, db)
      | some p =>
        match change stamp p with
        | .error e => .error e
        | .ok p' =>
          if p'._id ≠ p._id then .error .immutableField
          else if codigoConflict oid p p'.codigo db then .error .duplicateKey
          else .ok (some p', replaceOne oid p' db)

/-- The model call `Product.findByIdAndDelete(id)`. -/
def findByIdAndDelete (rt : Runtime) (id : String) (db : List Product) :
    Except StoreError (Option Product × List Product) :=
  match rt.castObjectId (.str id) with
  | none => .error .castError
  | some oid =>
    match findById oid db with
    | none => .ok (none, db)
    | some p => .ok (some p, removeOne oid db)

/-! ## multer -/

/-- The `filename` callback of the disk storage (line 46). -/
def storageFilename (now : Nat) (originalname : String) : String :=
  toString now ++ "-" ++ originalname

/-- The directory after a file is written under this name: a file that has
the name already is overwritten. -/
def writeFile (name : String) (files : List String) : List String :=
  if name ∈ files then files else files ++ [name]

/-- The name `req.file.filename` of the uploaded file, when there is one. -/
def uploadedName (env : Env) (req : Req) : Option String :=
  req.file.map (storageFilename env.uploadTime)

/-- The middleware `upload.single('foto')`: the file, when there is one, is
written to `uploads/` and `req.file.filename` is its name there. -/
def uploadSingle (env : Env) (req : Req) (st : Store) : Option String × Store :=
  match uploadedName env req with
  | none => (none, st)
  | some name => (some name, { st with uploads := writeFile name st.uploads })

/-- The URL of an uploaded file (lines 59 and 95). -/
def fileUrl (req : Req) (filename : String) : String :=
  req.protocol ++ "://" ++ req.host ++ "/uploads/" ++ filename

/-! ## The handlers -/

/-- The value of `fotoUrl` at line 59. -/
def createFotoUrl (req : Req) : Option String → String
  | some filename => fileUrl req filename
  | none => ""

/-- The handler of `POST /api/products` (lines 55-75). -/
def postProduct (rt : Runtime) (env : Env) (req : Req) (st : Store) : Response × Store :=
  match save rt env ("PROD-" ++ toString env.now) (field req.body "nombre")
      (field req.body "descripcion") (field req.body "cantidad") (field req.body "precio")
      (createFotoUrl req (uploadSingle env req st).1) (uploadSingle env req st).2.products with
  | .ok p =>
    (⟨201, .product p⟩,
      { (uploadSingle env req st).2 with products := (uploadSingle env req st).2.products ++ [p] })
  | .error e => (⟨400, .errorMessage e⟩, (uploadSingle env req st).2)

/-- The handler of `GET /api/products` (lines 78-85). -/
def getProducts (st : Store) : Response × Store :=
  (⟨200, .products st.products⟩, st)

/-- The object `updateData` after lines 91-97: the body, with `fotoUrl` set to
the URL of the uploaded file when there is one. -/
def updateData (req : Req) : Option String → JVal
  | some filename => setField "fotoUrl" (.str (fileUrl req filename)) req.body
  | none => req.body

/-- The handler of `PUT /api/products/:id` (lines 88-106). -/
def putProduct (rt : Runtime) (env : Env) (id : String) (req : Req) (st : Store) :
    Response × Store :=
  match findByIdAndUpdate rt env.stamp id (updateData req (uploadSingle env req st).1)
      (uploadSingle env req st).2.products with
  | .ok (some p, db) => (⟨200, .product p⟩, { (uploadSingle env req st).2 with products := db })
  | .ok (none, _) => (⟨404, .message "Producto no encontrado"⟩, (uploadSingle env req st).2)
  | .error e => (⟨400, .errorMessage e⟩, (uploadSingle env req st).2)

/-- The handler of `DELETE /api/products/:id` (lines 109-121). -/
def deleteProduct (rt : Runtime) (id : String) (st : Store) : Response × Store :=
  match findByIdAndDelete rt id st.products with
  | .ok (some _, db) => (⟨200, .message "Producto eliminado exitosamente"⟩, { st with products := db })
  | .ok (none, _) => (⟨404, .message "Producto no encontrado"⟩, st)
  | .error e => (⟨500, .errorMessage e⟩, st)

/-! ## Request sequences -/

/-- A request to the API. -/
inductive Request where
  | list
  | create (env : Env) (req : Req)
  | update (env : Env) (id : String) (req : Req)
  | delete (id : String)

/-- The response to a request and the store after it. -/
def handle (rt : Runtime) : Request → Store → Response × Store
  | .list, st => getProducts st
  | .create env req, st => postProduct rt env req st
  | .update env id req, st => putProduct rt env id req st
  | .delete id, st => deleteProduct rt id st

/-- The store after a sequence of requests. -/
def run (rt : Runtime) (st : Store) (rs : List Request) : Store :=
  rs.foldl (fun s r => (handle rt r s).2) st

/-- The empty store. -/
def emptyStore : Store := ⟨[], []⟩

/-- The stores reached from the empty one by a sequence of requests. -/
def Reachable (rt : Runtime) (st : Store) : Prop :=
  ∃ rs : List Request, run rt emptyStore rs = st

/-! ## An example runtime -/

/-- The value of a string of decimal digits, `none` when a character is not a
digit or the string is empty. -/
def digitsValue (cs : List Char) : Option Nat :=
  if cs.isEmpty then none
  else cs.foldl
    (fun acc c => match acc with
      | some n => if c.isDigit then some (10 * n + (c.toNat - 48)) else none
      | none => none)
    (some 0)

/-- A decimal numeral `digits` or `digits.digits` as a rational. -/
def unsignedDecimal (cs : List Char) : Option ℚ :=
  match cs.span (fun c => c != '.') with
  | (ip, []) => (digitsValue ip).map (fun n => (n : ℚ))
  | (ip, _ :: fp) =>
    match digitsValue ip, digitsValue fp with
    | some a, some b => some ((a : ℚ) + (b : ℚ) / (10 : ℚ) ^ fp.length)
    | _, _ => none

/-- A decimal numeral with an optional minus sign. -/
def decimalNumber (s : String) : Option ℚ :=
  match s.data with
  | '-' :: cs => (unsignedDecimal cs).map (fun q => -q)
  | cs => unsignedDecimal cs

/-- Whether a character is a lower-case hexadecimal digit. -/
def isHex (c : Char) : Bool :=
  c.isDigit || ('a'.toNat ≤ c.toNat && c.toNat ≤ 'f'.toNat)

/-- A runtime for the examples: it reads plain decimal numerals and the two
infinities and accepts the 24-digit lower-case hexadecimal form of an
`ObjectId`. Its `castOther` refuses every update document; this is a choice of
the example and not a statement about Mongoose, and no example below reaches
it. -/
def stdRuntime : Runtime where
  toNumber s :=
    if s = "Infinity" then some .posInf
    else if s = "-Infinity" then some .negInf
    else (decimalNumber s).map JNum.fin
  numToString
    | .fin q => toString q
    | .posInf => "Infinity"
    | .negInf => "-Infinity"
  castObjectId
    | .str s => if s.length = 24 ∧ s.data.all isHex then some s else none
    | _ => none
  castOther _ := .error .invalidUpdate

/-! ## Predicates used in the statements -/

/-- Whether the cast of an update document succeeds. -/
def updateCasts (rt : Runtime) (body : JVal) : Bool :=
  match castUpdate rt body with
  | .ok _ => true
  | .error _ => false

/-- Whether a string is a well-formed `ObjectId`. -/
def isObjectId (rt : Runtime) (id : String) : Bool :=
  (rt.castObjectId (.str id)).isSome

/-- The invariant of the two unique indexes. -/
def UniqueKeys (st : Store) : Prop :=
  (st.products.map (fun p => p._id)).Nodup ∧ (st.products.map (fun p => p.codigo)).Nodup

/-- A stored quantity that is an integer greater than or equal to 0. -/
def validCantidad : Option JNum → Bool
  | some (.fin q) => decide (q.den = 1) && decide (0 ≤ q)
  | _ => false

/-- A stored price that is a number greater than or equal to 0. -/
def validPrecio : Option JNum → Bool
  | some (.fin q) => decide (0 ≤ q)
  | some .posInf => true
  | _ => false

/-- Whether a value, when there is one and it passes the number cast, casts to
a number that `ok` accepts. -/
def numberFieldOk (rt : Runtime) (ok : Option JNum → Bool) : Option JVal → Bool
  | none => true
  | some v =>
    match castNumber rt v with
    | .ok r => ok r
    | .error _ => true

/-- Whether a create request carries only valid numbers, and whether an update
request is made only of plain fields and sets only valid numbers: a `cantidad`
that casts to an integer greater than or equal to 0 and a `precio` that casts
to a number greater than or equal to 0 (or that do not pass the cast). -/
def Request.carriesValid (rt : Runtime) : Request → Bool
  | .create _ req =>
    numberFieldOk rt validCantidad (field req.body "cantidad")
      && numberFieldOk rt validPrecio (field req.body "precio")
  | .update _ _ req =>
    isSimple req.body
      && numberFieldOk rt validCantidad (setValue req.body "cantidad")
      && numberFieldOk rt validPrecio (setValue req.body "precio")
  | _ => true

/-- Whether every stored product has a valid quantity and a valid price. -/
def allValid (st : Store) : Bool :=
  st.products.all (fun p => validCantidad p.cantidad && validPrecio p.precio)

/-! ## Example requests -/

/-- An `ObjectId`. -/
def idA : ObjectId := "aaaaaaaaaaaaaaaaaaaaaaaa"

/-- Another `ObjectId`. -/
def idB : ObjectId := "bbbbbbbbbbbbbbbbbbbbbbbb"

/-- The environment of a first request. -/
def envA : Env := ⟨1000, 2000, 3000, idA⟩

/-- The environment of a later request. -/
def envB : Env := ⟨4000, 5000, 6000, idB⟩

/-- The create request of the scenario of the specification, with an image. -/
def widgetReq : Req :=
  { protocol := "http", host := "localhost:5000",
    body := .obj [("nombre", .str "Widget"), ("descripcion", .str "A widget"),
      ("cantidad", .str "20"), ("precio", .str "9.99")],
    file := some "w.png" }

/-- A create request with an image. -/
def lampReq : Req :=
  { protocol := "http", host := "localhost:5000",
    body := .obj [("nombre", .str "Lamp"), ("descripcion", .str "A lamp"),
      ("cantidad", .str "3"), ("precio", .str "15")],
    file := some "lamp.png" }

/-- The product that `lampReq` creates in the environment `envA`. -/
def lamp : Product :=
  { _id := idA, codigo := some "PROD-2000", nombre := some "Lamp",
    descripcion := some "A lamp", cantidad := some 3, precio := some 15,
    fotoUrl := some "http://localhost:5000/uploads/1000-lamp.png",
    createdAt := 3000, updatedAt := 3000 }

/-- The store after `lampReq`. -/
def lampStore : Store := (postProduct stdRuntime envA lampReq emptyStore).2

/-- A request whose body is the object of these fields, with no file. -/
def bodyReq (kvs : List (String × JVal)) : Req :=
  { protocol := "http", host := "localhost:5000", body := .obj kvs, file := none }

/-- A request whose body is the object of these fields, with a file
`new.png`. -/
def fileReq (kvs : List (String × JVal)) : Req :=
  { protocol := "http", host := "localhost:5000", body := .obj kvs, file := some "new.png" }

/-- Two create requests, then an update that asks for the `codigo` of the
other product. -/
def twoLamps : List Request :=
  [.create envA lampReq, .create envB lampReq,
    .update envB idA (bodyReq [("codigo", .str "PROD-5000")])]

/-- A create request with a negative quantity and a negative price. -/
def negativeReq : Req :=
  { protocol := "http", host := "localhost:5000",
    body := .obj [("nombre", .str "Lamp"), ("descripcion", .str "A lamp"),
      ("cantidad", .str "-5"), ("precio", .str "-1")],
    file := some "lamp.png" }

/-! ## The collection operations -/

theorem findById_some {id : ObjectId} {db : List Product} {p : Product}
    (h : findById id db = some p) : p ∈ db ∧ p._id = id := by
  unfold findById at h
  exact ⟨List.mem_of_find?_eq_some h, by simpa using List.find?_some h⟩

theorem findById_none {id : ObjectId} {db : List Product}
    (h : findById id db = none) : ∀ p ∈ db, p._id ≠ id := by
  unfold findById at h
  intro p hp
  simpa using List.find?_eq_none.mp h p hp

theorem findById_of_mem {db : List Product} {p : Product}
    (hn : (db.map (fun q => q._id)).Nodup) (hp : p ∈ db) : findById p._id db = some p := by
  induction db with
  | nil => cases hp
  | cons a l ih =>
    rw [List.map_cons, List.nodup_cons] at hn
    rcases List.mem_cons.mp hp with rfl | hmem
    · simp [findById]
    · have hne : a._id ≠ p._id := fun e => hn.1 (e ▸ List.mem_map_of_mem (fun q => q._id) hmem)
      have := ih hn.2 hmem
      simpa [findById, hne] using this

theorem map_id_replaceOne {id : ObjectId} {p' : Product} (h : p'._id = id) (db : List Product) :
    (replaceOne id p' db).map (fun q => q._id) = db.map (fun q => q._id) := by
  induction db with
  | nil => rfl
  | cons a l ih =>
    by_cases ha : a._id = id
    · simp [replaceOne, ha, h]
    · simp [replaceOne, ha, ih]

theorem mem_replaceOne {id : ObjectId} {p' q : Product} {db : List Product}
    (h : q ∈ replaceOne id p' db) : q ∈ db ∨ q = p' := by
  induction db with
  | nil => cases h
  | cons a l ih =>
    by_cases ha : a._id = id
    · simp only [replaceOne, ha, if_true, List.mem_cons] at h
      rcases h with h | h
      · exact Or.inr h
      · exact Or.inl (List.mem_cons_of_mem _ h)
    · simp only [replaceOne, ha, if_false, List.mem_cons] at h
      rcases h with h | h
      · exact Or.inl (h ▸ List.mem_cons_self _ _)
      · rcases ih h with h | h
        · exact Or.inl (List.mem_cons_of_mem _ h)
        · exact Or.inr h

theorem mem_replaceOne_self {id : ObjectId} {p' p : Product} {db : List Product}
    (hp : p ∈ db) (hid : p._id = id) : p' ∈ replaceOne id p' db := by
  induction db with
  | nil => cases hp
  | cons a l ih =>
    by_cases ha : a._id = id
    · simp [replaceOne, ha]
    · have hmem : p ∈ l := by
        rcases List.mem_cons.mp hp with rfl | h
        · exact absurd hid ha
        · exact h
      simp [replaceOne, ha, ih hmem]

theorem replaceOne_eq_map {id : ObjectId} {p' : Product} {db : List Product}
    (hn : (db.map (fun q => q._id)).Nodup) :
    replaceOne id p' db = db.map (fun q => if q._id = id then p' else q) := by
  induction db with
  | nil => rfl
  | cons a l ih =>
    rw [List.map_cons, List.nodup_cons] at hn
    by_cases ha : a._id = id
    · have hl : ∀ q ∈ l, q._id ≠ id := fun q hq e =>
        hn.1 (by rw [ha, ← e]; exact List.mem_map_of_mem (fun q => q._id) hq)
      have : l.map (fun q => if q._id = id then p' else q) = l := by
        conv_rhs => rw [← List.map_id l]
        exact List.map_congr_left (fun q hq => by simp [hl q hq])
      simp [replaceOne, ha, this]
    · simp [replaceOne, ha, ih hn.2]

theorem removeOne_sublist (id : ObjectId) (db : List Product) :
    (removeOne id db).Sublist db := by
  induction db with
  | nil => exact List.Sublist.slnil
  | cons a l ih =>
    by_cases ha : a._id = id
    · simp [removeOne, ha]
    · simp [removeOne, ha, ih]

theorem removeOne_eq_filter {id : ObjectId} {db : List Product}
    (hn : (db.map (fun q => q._id)).Nodup) :
    removeOne id db = db.filter (fun q => decide (q._id ≠ id)) := by
  induction db with
  | nil => rfl
  | cons a l ih =>
    rw [List.map_cons, List.nodup_cons] at hn
    by_cases ha : a._id = id
    · have hl : ∀ q ∈ l, q._id ≠ id := fun q hq e =>
        hn.1 (by rw [ha, ← e]; exact List.mem_map_of_mem (fun q => q._id) hq)
      have : l.filter (fun q => decide (q._id ≠ id)) = l :=
        List.filter_eq_self.mpr (fun q hq => by simp [hl q hq])
      rw [removeOne, if_pos ha, List.filter_cons_of_neg (by simp [ha]), this]
    · rw [removeOne, if_neg ha, List.filter_cons_of_pos (by simp [ha]), ih hn.2]

theorem map_replaceOne_of_eq {α : Type} (f : Product → α) {id : ObjectId} {p p' : Product}
    {db : List Product} (hf : findById id db = some p) (h : f p' = f p) :
    (replaceOne id p' db).map f = db.map f := by
  induction db with
  | nil => rfl
  | cons a l ih =>
    by_cases ha : a._id = id
    · have : a = p := by simpa [findById, ha] using hf
      subst this
      simp [replaceOne, ha, h]
    · have hf' : findById id l = some p := by simpa [findById, ha] using hf
      simp [replaceOne, ha, ih hf']

theorem findById_eq_none_of_forall {id : ObjectId} {db : List Product}
    (h : ∀ p ∈ db, p._id ≠ id) : findById id db = none := by
  unfold findById
  exact List.find?_eq_none.mpr (fun p hp => by simpa using h p hp)

theorem id_eq_iff_of_nodup {db : List Product} {p q : Product}
    (hn : (db.map (fun q => q._id)).Nodup) (hp : p ∈ db) (hq : q ∈ db) :
    q._id = p._id ↔ q = p :=
  ⟨fun h => List.inj_on_of_nodup_map hn hq hp h, fun h => h ▸ rfl⟩


theorem filter_ne_eq_filter_id {db : List Product} {p : Product}
    (hn : (db.map (fun q => q._id)).Nodup) (hp : p ∈ db) :
    db.filter (fun q => decide (q._id ≠ p._id)) = db.filter (fun q => decide (q ≠ p)) := by
  refine List.filter_congr (fun q hq => ?_)
  have := id_eq_iff_of_nodup hn hp hq
  by_cases hqp : q = p
  · subst hqp
    simp
  · have hne : ¬ q._id = p._id := fun e => hqp (this.mp e)
    simp [hqp, hne]

theorem nodup_codigo_replaceOne {id : ObjectId} {p' : Product} {db : List Product}
    (hids : (db.map (fun q => q._id)).Nodup) (hcod : (db.map (fun q => q.codigo)).Nodup)
    (h : ∀ q ∈ db, q._id ≠ id → q.codigo ≠ p'.codigo) :
    ((replaceOne id p' db).map (fun q => q.codigo)).Nodup := by
  rw [replaceOne_eq_map hids, List.map_map]
  refine List.Nodup.map_on ?_ (List.Nodup.of_map _ hids)
  intro x hx y hy hxy
  simp only [Function.comp] at hxy
  by_cases hxi : x._id = id <;> by_cases hyi : y._id = id
  · exact List.inj_on_of_nodup_map hids hx hy (hxi.trans hyi.symm)
  · simp only [hxi, hyi, if_true, if_false] at hxy
    exact absurd hxy.symm (h y hy hyi)
  · simp only [hxi, hyi, if_true, if_false] at hxy
    exact absurd hxy (h x hx hxi)
  · simp only [hxi, hyi, if_false] at hxy
    exact List.inj_on_of_nodup_map hcod hx hy hxy


/-! ## Bodies -/

theorem fieldOf_setFieldOf_self (k : String) (v : JVal) (kvs : List (String × JVal)) :
    fieldOf (setFieldOf k v kvs) k = some v := by
  have h : (kvs.filter (fun kv => !decide (kv.1 = k))).filter (fun kv => decide (kv.1 = k))
      = [] := by
    rw [List.filter_filter, List.filter_eq_nil_iff]
    intro kv _
    by_cases hk : kv.1 = k <;> simp [hk]
  simp [fieldOf, setFieldOf, List.filter_cons, h]

theorem fieldOf_setFieldOf_ne {k k' : String} (hk : k' ≠ k) (v : JVal)
    (kvs : List (String × JVal)) : fieldOf (setFieldOf k v kvs) k' = fieldOf kvs k' := by
  have hkk : ¬ k = k' := fun e => hk e.symm
  have h : (kvs.filter (fun kv => !decide (kv.1 = k))).filter (fun kv => decide (kv.1 = k'))
      = kvs.filter (fun kv => decide (kv.1 = k')) := by
    rw [List.filter_filter]
    refine List.filter_congr (fun kv _ => ?_)
    by_cases h1 : kv.1 = k'
    · have : ¬ kv.1 = k := fun e => hk (h1 ▸ e)
      simp [h1, this, hk]
    · simp [h1]
  simp only [fieldOf, setFieldOf, List.filter_cons, hkk, decide_False, Bool.false_eq_true,
    if_false, h]

theorem isSimple_obj {body : JVal} (h : isSimple body = true) :
    ∃ kvs, body = .obj kvs ∧ simpleFields kvs = true := by
  cases body <;> first | exact ⟨_, rfl, h⟩ | cases h

theorem field_setField_self (k : String) (v : JVal) (kvs : List (String × JVal)) :
    field (setField k v (.obj kvs)) k = some v :=
  fieldOf_setFieldOf_self k v kvs

theorem field_setField_ne {k k' : String} (hk : k' ≠ k) (v : JVal) (body : JVal) :
    field (setField k v body) k' = field body k' := by
  cases body <;> first | rfl | exact fieldOf_setFieldOf_ne hk v _

theorem setValue_setField_self (k : String) (v : JVal) (kvs : List (String × JVal)) :
    setValue (setField k v (.obj kvs)) k = some v := by
  simp [setValue, field_setField_self]

theorem setValue_setField_ne {k k' : String} (hk : k' ≠ k) (hs : "$set" ≠ k) (v : JVal)
    (body : JVal) : setValue (setField k v body) k' = setValue body k' := by
  simp only [setValue, field_setField_ne hk, field_setField_ne hs]

theorem simpleFields_setFieldOf {k : String} {v : JVal} (hk : plainKey k = true)
    (hv : v.isObj = false) {kvs : List (String × JVal)} (h : simpleFields kvs = true) :
    simpleFields (setFieldOf k v kvs) = true := by
  have hks : ¬ k = "$set" := by
    intro e
    rw [e] at hk
    exact absurd hk (by decide)
  simp only [simpleFields, Bool.and_eq_true, List.all_eq_true, decide_eq_true_eq] at h ⊢
  constructor
  · intro kv hkv
    rcases List.mem_cons.mp hkv with rfl | hmem
    · simp [plainEntry, hk, hv]
    · exact h.1 kv (List.mem_of_mem_filter hmem)
  · have hsub : ((setFieldOf k v kvs).filter (fun kv => decide (kv.1 = "$set"))).length
        ≤ (kvs.filter (fun kv => decide (kv.1 = "$set"))).length := by
      simp only [setFieldOf, List.filter_cons, hks, decide_False, Bool.false_eq_true, if_false]
      rw [List.filter_filter]
      exact (List.monotone_filter_right kvs (fun kv hkv => by
        simp only [Bool.and_eq_true] at hkv
        exact hkv.1)).length_le
    exact le_trans hsub h.2

theorem isSimple_setField {k : String} {v : JVal} (hk : plainKey k = true)
    (hv : v.isObj = false) {body : JVal} (h : isSimple body = true) :
    isSimple (setField k v body) = true := by
  obtain ⟨kvs, rfl, hs⟩ := isSimple_obj h
  exact simpleFields_setFieldOf hk hv hs

/-! ## The upload middleware -/

theorem uploadSingle_products (env : Env) (req : Req) (st : Store) :
    (uploadSingle env req st).2.products = st.products := by
  unfold uploadSingle
  cases uploadedName env req <;> rfl

theorem uploadSingle_fst (env : Env) (req : Req) (st : Store) :
    (uploadSingle env req st).1 = uploadedName env req := by
  unfold uploadSingle
  cases uploadedName env req <;> rfl

theorem uploadSingle_none (env : Env) (req : Req) (st : Store) (h : req.file = none) :
    uploadSingle env req st = (none, st) := by
  simp [uploadSingle, uploadedName, h]

theorem uploadSingle_some (env : Env) (req : Req) {orig : String} (st : Store)
    (h : req.file = some orig) :
    uploadSingle env req st =
      (some (storageFilename env.uploadTime orig),
        { st with uploads := writeFile (storageFilename env.uploadTime orig) st.uploads }) := by
  simp [uploadSingle, uploadedName, h]

theorem mem_writeFile (name : String) (files : List String) : name ∈ writeFile name files := by
  unfold writeFile
  split
  · assumption
  · simp

theorem writeFile_of_mem {name : String} {files : List String} (h : name ∈ files) :
    writeFile name files = files := by
  unfold writeFile
  rw [if_pos h]

theorem subset_writeFile (name : String) (files : List String) :
    ∀ f ∈ files, f ∈ writeFile name files := by
  intro f hf
  unfold writeFile
  split
  · exact hf
  · exact List.mem_append_left _ hf

/-! ## The cast of an update made of plain fields -/

theorem castSet_ok {rt : Runtime} {body : JVal} {u : Update}
    (h : castSet rt body = .ok u) :
    castIdField rt (setValue body "_id") = .ok u._id ∧
    castStringUpdate rt (setValue body "codigo") = .ok u.codigo ∧
    castStringUpdate rt (setValue body "nombre") = .ok u.nombre ∧
    castStringUpdate rt (setValue body "descripcion") = .ok u.descripcion ∧
    castNumberUpdate rt (setValue body "cantidad") = .ok u.cantidad ∧
    castNumberUpdate rt (setValue body "precio") = .ok u.precio ∧
    castStringUpdate rt (setValue body "fotoUrl") = .ok u.fotoUrl := by
  unfold castSet at h
  split at h
  · rename_i i co n d c pr f hi hco hn hd hc hpr hf
    injection h with h
    subst h
    exact ⟨hi, hco, hn, hd, hc, hpr, hf⟩
  · cases h

theorem castSet_of_parts {rt : Runtime} {body : JVal}
    {i : Option (Option ObjectId)} {co n d f : Option (Option String)}
    {c pr : Option (Option JNum)}
    (hi : castIdField rt (setValue body "_id") = .ok i)
    (hco : castStringUpdate rt (setValue body "codigo") = .ok co)
    (hn : castStringUpdate rt (setValue body "nombre") = .ok n)
    (hd : castStringUpdate rt (setValue body "descripcion") = .ok d)
    (hc : castNumberUpdate rt (setValue body "cantidad") = .ok c)
    (hpr : castNumberUpdate rt (setValue body "precio") = .ok pr)
    (hf : castStringUpdate rt (setValue body "fotoUrl") = .ok f) :
    castSet rt body = .ok
      { _id := i, codigo := co, nombre := n, descripcion := d, cantidad := c,
        precio := pr, fotoUrl := f } := by
  unfold castSet
  rw [hi, hco, hn, hd, hc, hpr, hf]

theorem castUpdate_simple {rt : Runtime} {body : JVal}
    (h : isSimple body = true) :
    castUpdate rt body =
      match castSet rt body with
      | .ok u => .ok (applySet u)
      | .error e => .error e := by
  simp [castUpdate, h]

theorem castUpdate_ok_simple {rt : Runtime} {body : JVal}
    {change : Nat → Product → Except StoreError Product}
    (h : isSimple body = true) (hc : castUpdate rt body = .ok change) :
    ∃ u, castSet rt body = .ok u ∧ change = applySet u := by
  rw [castUpdate_simple h] at hc
  cases hu : castSet rt body with
  | error e => simp [hu] at hc
  | ok u =>
    simp only [hu] at hc
    injection hc with hc
    exact ⟨u, rfl, hc.symm⟩

theorem applySet_ok {u : Update} {t : Nat} {p p' : Product} (h : applySet u t p = .ok p') :
    p' = applyUpdate u t p := by
  unfold applySet at h
  split at h
  · cases h
  · injection h with h
    exact h.symm

/-! ## The update handler, case by case -/

theorem putProduct_castId_none {rt : Runtime} {id : String} (env : Env) (req : Req) (st : Store)
    (h : rt.castObjectId (.str id) = none) :
    putProduct rt env id req st =
      (⟨400, .errorMessage .castError⟩, (uploadSingle env req st).2) := by
  simp [putProduct, findByIdAndUpdate, h]

theorem putProduct_castUpdate_error {rt : Runtime} {id : String} {oid : ObjectId} {e : StoreError}
    (env : Env) (req : Req) (st : Store) (h : rt.castObjectId (.str id) = some oid)
    (hu : castUpdate rt (updateData req (uploadSingle env req st).1) = .error e) :
    putProduct rt env id req st = (⟨400, .errorMessage e⟩, (uploadSingle env req st).2) := by
  simp [putProduct, findByIdAndUpdate, h, hu]

theorem putProduct_not_found {rt : Runtime} {id : String} {oid : ObjectId}
    {change : Nat → Product → Except StoreError Product}
    (env : Env) (req : Req) (st : Store) (h : rt.castObjectId (.str id) = some oid)
    (hu : castUpdate rt (updateData req (uploadSingle env req st).1) = .ok change)
    (hf : findById oid st.products = none) :
    putProduct rt env id req st =
      (⟨404, .message "Producto no encontrado"⟩, (uploadSingle env req st).2) := by
  simp [putProduct, findByIdAndUpdate, h, hu, uploadSingle_products, hf]

theorem putProduct_found {rt : Runtime} {id : String} {oid : ObjectId}
    {change : Nat → Product → Except StoreError Product} {p p' : Product}
    (env : Env) (req : Req) (st : Store) (h : rt.castObjectId (.str id) = some oid)
    (hu : castUpdate rt (updateData req (uploadSingle env req st).1) = .ok change)
    (hf : findById oid st.products = some p) (hch : change env.stamp p = .ok p')
    (hi : p'._id = p._id) (hc : codigoConflict oid p p'.codigo st.products = false) :
    putProduct rt env id req st =
      (⟨200, .product p'⟩,
        { (uploadSingle env req st).2 with products := replaceOne oid p' st.products }) := by
  simp [putProduct, findByIdAndUpdate, h, hu, uploadSingle_products, hf, hch, hi, hc]

/-- Every update request ends in one of three ways. -/
theorem putProduct_cases (rt : Runtime) (env : Env) (id : String) (req : Req) (st : Store) :
    (∃ e, putProduct rt env id req st = (⟨400, .errorMessage e⟩, (uploadSingle env req st).2)) ∨
    putProduct rt env id req st =
      (⟨404, .message "Producto no encontrado"⟩, (uploadSingle env req st).2) ∨
    (∃ oid change p p', rt.castObjectId (.str id) = some oid ∧
      castUpdate rt (updateData req (uploadSingle env req st).1) = .ok change ∧
      findById oid st.products = some p ∧ change env.stamp p = .ok p' ∧ p'._id = p._id ∧
      codigoConflict oid p p'.codigo st.products = false ∧
      putProduct rt env id req st =
        (⟨200, .product p'⟩,
          { (uploadSingle env req st).2 with products := replaceOne oid p' st.products })) := by
  cases h : rt.castObjectId (.str id) with
  | none => exact Or.inl ⟨_, putProduct_castId_none env req st h⟩
  | some oid =>
    cases hu : castUpdate rt (updateData req (uploadSingle env req st).1) with
    | error e => exact Or.inl ⟨_, putProduct_castUpdate_error env req st h hu⟩
    | ok change =>
      cases hf : findById oid st.products with
      | none => exact Or.inr (Or.inl (putProduct_not_found env req st h hu hf))
      | some p =>
        cases hch : change env.stamp p with
        | error e =>
          exact Or.inl ⟨e, by
            simp [putProduct, findByIdAndUpdate, h, hu, uploadSingle_products, hf, hch]⟩
        | ok p' =>
          by_cases hi : p'._id = p._id
          · cases hc : codigoConflict oid p p'.codigo st.products with
            | true =>
              exact Or.inl ⟨.duplicateKey, by
                simp [putProduct, findByIdAndUpdate, h, hu, uploadSingle_products, hf, hch,
                  hi, hc]⟩
            | false =>
              exact Or.inr (Or.inr ⟨oid, change, p, p', rfl, rfl, hf, hch, hi, hc,
                putProduct_found env req st h hu hf hch hi hc⟩)
          · exact Or.inl ⟨.immutableField, by
              simp [putProduct, findByIdAndUpdate, h, hu, uploadSingle_products, hf, hch, hi]⟩

/-! ## The delete handler, case by case -/

theorem deleteProduct_castId_none {rt : Runtime} {id : String} (st : Store)
    (h : rt.castObjectId (.str id) = none) :
    deleteProduct rt id st = (⟨500, .errorMessage .castError⟩, st) := by
  simp [deleteProduct, findByIdAndDelete, h]

theorem deleteProduct_not_found {rt : Runtime} {id : String} {oid : ObjectId} (st : Store)
    (h : rt.castObjectId (.str id) = some oid) (hf : findById oid st.products = none) :
    deleteProduct rt id st = (⟨404, .message "Producto no encontrado"⟩, st) := by
  simp [deleteProduct, findByIdAndDelete, h, hf]

theorem deleteProduct_found {rt : Runtime} {id : String} {oid : ObjectId} {p : Product}
    (st : Store) (h : rt.castObjectId (.str id) = some oid)
    (hf : findById oid st.products = some p) :
    deleteProduct rt id st =
      (⟨200, .message "Producto eliminado exitosamente"⟩,
        { st with products := removeOne oid st.products }) := by
  simp [deleteProduct, findByIdAndDelete, h, hf]

/-! ## The update data -/

theorem plainKey_fotoUrl : plainKey "fotoUrl" = true := by decide

theorem isSimple_updateData {req : Req} (h : isSimple req.body = true) (f : Option String) :
    isSimple (updateData req f) = true := by
  cases f with
  | none => exact h
  | some filename =>
    exact isSimple_setField plainKey_fotoUrl
      (rfl : (JVal.str (fileUrl req filename)).isObj = false) h

theorem setValue_updateData {k : String} (hk : k ≠ "fotoUrl") (req : Req) (f : Option String) :
    setValue (updateData req f) k = setValue req.body k := by
  cases f with
  | none => rfl
  | some filename => exact setValue_setField_ne hk (by decide) _ _

/-- An update made of plain fields that is applied to a document sets the
paths of its cast `$set`. -/
theorem simple_change {rt : Runtime} {req : Req} {f : Option String}
    {change : Nat → Product → Except StoreError Product} {t : Nat} {p p' : Product}
    (hs : isSimple req.body = true) (hu : castUpdate rt (updateData req f) = .ok change)
    (hch : change t p = .ok p') :
    ∃ u, castSet rt (updateData req f) = .ok u ∧ p' = applyUpdate u t p := by
  obtain ⟨u, hcs, rfl⟩ := castUpdate_ok_simple (isSimple_updateData hs f) hu
  exact ⟨u, hcs, applySet_ok hch⟩

theorem castStringUpdate_none {rt : Runtime} {r : Option (Option String)}
    (h : castStringUpdate rt none = .ok r) : r = none := by
  simp only [castStringUpdate] at h
  injection h with h
  exact h.symm

theorem castNumberUpdate_none {rt : Runtime} {r : Option (Option JNum)}
    (h : castNumberUpdate rt none = .ok r) : r = none := by
  simp only [castNumberUpdate] at h
  injection h with h
  exact h.symm

/-! ## C1: what an update leaves in place -/

/-- C1, as stated, fails: an update request whose body carries `codigo`
replaces the stored `codigo`. On the store holding the one product with
`codigo` `PROD-2000`, the request `PUT /api/products/aaaaaaaaaaaaaaaaaaaaaaaa`
with body `codigo = "X"` is answered 200 and the stored `codigo` is `X`. -/
theorem put_body_codigo_replaces_codigo :
    lampStore.products.map (fun p => (p._id, p.codigo)) = [(idA, some "PROD-2000")] ∧
    (putProduct stdRuntime envB idA (bodyReq [("codigo", .str "X")]) lampStore).1.status = 200 ∧
    (putProduct stdRuntime envB idA (bodyReq [("codigo", .str "X")])
      lampStore).2.products.map (fun p => (p._id, p.codigo)) = [(idA, some "X")] := by
  decide

/-- C1, amended: after any `PUT /api/products/:id` request (any id, any body,
with or without a file, whatever the runtime does with update operators) the
stored products have the same ids as before; and when the body is made only
of plain fields, directly or under `$set`, and does not set `codigo`, they
have the same `codigo` as before. -/
theorem put_keeps_id_and_codigo (rt : Runtime) (env : Env) (id : String) (req : Req)
    (st : Store) :
    (putProduct rt env id req st).2.products.map (fun p => p._id)
      = st.products.map (fun p => p._id) ∧
    (isSimple req.body = true → setValue req.body "codigo" = none →
      (putProduct rt env id req st).2.products.map (fun p => p.codigo)
        = st.products.map (fun p => p.codigo)) := by
  rcases putProduct_cases rt env id req st with
    ⟨e, h⟩ | h | ⟨oid, change, p, p', -, hu, hf, hch, hi, -, h⟩
  · rw [h]
    exact ⟨by rw [uploadSingle_products], fun _ _ => by rw [uploadSingle_products]⟩
  · rw [h]
    exact ⟨by rw [uploadSingle_products], fun _ _ => by rw [uploadSingle_products]⟩
  · rw [h]
    refine ⟨map_replaceOne_of_eq (fun p => p._id) hf hi, fun hs hc => ?_⟩
    refine map_replaceOne_of_eq (fun p => p.codigo) hf ?_
    obtain ⟨u, hcs, rfl⟩ := simple_change hs hu hch
    have h1 := (castSet_ok hcs).2.1
    rw [setValue_updateData (by decide), hc] at h1
    simp [applyUpdate, castStringUpdate_none h1]

/-- C1, amended, at the store `lampStore`: an update of the quantity leaves
the `codigo` in place. -/
theorem put_keeps_id_and_codigo_witness :
    isSimple (bodyReq [("cantidad", .str "5")]).body = true ∧
    (putProduct stdRuntime envB idA (bodyReq [("cantidad", .str "5")])
      lampStore).2.products.map (fun p => p.codigo)
        = lampStore.products.map (fun p => p.codigo) :=
  ⟨by decide, (put_keeps_id_and_codigo stdRuntime envB idA (bodyReq [("cantidad", .str "5")])
    lampStore).2 (by decide) rfl⟩

/-! ## C3: an update of the quantity alone -/

theorem castNumber_ok_not_obj {rt : Runtime} {v : JVal} {n : Option JNum}
    (hv : castNumber rt v = .ok n) : v.isObj = false := by
  cases v <;> first | rfl | simp [castNumber] at hv

theorem castUpdate_cantidad_only {rt : Runtime} {v : JVal} {n : Option JNum}
    (hv : castNumber rt v = .ok n) :
    castUpdate rt (.obj [("cantidad", v)]) = .ok (applySet
      { _id := none, codigo := none, nombre := none, descripcion := none,
        cantidad := some n, precio := none, fotoUrl := none }) := by
  have hs : isSimple (.obj [("cantidad", v)]) = true := by
    have hk : plainKey "cantidad" = true := by decide
    simp [isSimple, simpleFields, plainEntry, hk, castNumber_ok_not_obj hv]
  have hc : castNumberUpdate rt (setValue (.obj [("cantidad", v)]) "cantidad")
      = .ok (some n) := by
    show castNumberUpdate rt (some v) = _
    simp [castNumberUpdate, hv]
  rw [castUpdate_simple hs,
    castSet_of_parts (rfl : castIdField rt none = .ok none)
      (rfl : castStringUpdate rt none = .ok none) (rfl : castStringUpdate rt none = .ok none)
      (rfl : castStringUpdate rt none = .ok none) hc
      (rfl : castNumberUpdate rt none = .ok none) (rfl : castStringUpdate rt none = .ok none)]

/-- C3, as stated, fails: the update request on the id of the stored product,
without a file, whose body holds only `cantidad = "abc"`, is answered 400 and
the product keeps its quantity. -/
theorem put_cantidad_not_a_number :
    (putProduct stdRuntime envB idA (bodyReq [("cantidad", .str "abc")]) lampStore).1.status
      = 400 ∧
    (putProduct stdRuntime envB idA (bodyReq [("cantidad", .str "abc")]) lampStore).2
      = lampStore := by
  decide

/-- C3, amended: on a store whose ids are distinct, an update request on the
id of a stored product `p`, with no file and a body that holds only `cantidad`
with a value that passes the number cast, to `n`, is answered 200 with `p` in
which `cantidad` is `n` and `updatedAt` is the time of the write, every other
field being that of `p`; in the store that record replaces `p`, every other
product and the uploads are unchanged. -/
theorem put_cantidad_only (rt : Runtime) (env : Env) (id : String) (req : Req) (st : Store)
    (p : Product) (v : JVal) (n : Option JNum)
    (hids : (st.products.map (fun q => q._id)).Nodup)
    (hp : p ∈ st.products) (hid : rt.castObjectId (.str id) = some p._id)
    (hbody : req.body = .obj [("cantidad", v)]) (hfile : req.file = none)
    (hv : castNumber rt v = .ok n) :
    putProduct rt env id req st =
      (⟨200, .product { p with cantidad := n, updatedAt := env.stamp }⟩,
        { st with
          products := st.products.map
            (fun q => if q = p then { p with cantidad := n, updatedAt := env.stamp } else q) }) := by
  have hup := uploadSingle_none env req st hfile
  have hu : castUpdate rt (updateData req (uploadSingle env req st).1) = .ok (applySet
      { _id := none, codigo := none, nombre := none, descripcion := none,
        cantidad := some n, precio := none, fotoUrl := none }) := by
    rw [hup]
    show castUpdate rt req.body = _
    rw [hbody]
    exact castUpdate_cantidad_only hv
  have hf := findById_of_mem hids hp
  have hch : applySet
      { _id := none, codigo := none, nombre := none, descripcion := none,
        cantidad := some n, precio := none, fotoUrl := none } env.stamp p
      = .ok { p with cantidad := n, updatedAt := env.stamp } := by
    simp [applySet, applyUpdate]
  have hcf : codigoConflict p._id p p.codigo st.products = false := by
    simp [codigoConflict]
  rw [putProduct_found env req st hid hu hf hch rfl hcf, hup, replaceOne_eq_map hids]
  have hmap : ∀ p' : Product, st.products.map (fun q => if q._id = p._id then p' else q)
      = st.products.map (fun q => if q = p then p' else q) := by
    intro p'
    refine List.map_congr_left (fun q hq => ?_)
    by_cases hqp : q = p
    · subst hqp
      simp
    · have : ¬ q._id = p._id := fun e => hqp ((id_eq_iff_of_nodup hids hp hq).mp e)
      simp [hqp, this]
  rw [hmap]

/-- C3, amended, at the store `lampStore`: `cantidad = 5` on the stored
product. -/
theorem put_cantidad_only_witness :
    lamp ∈ lampStore.products ∧
    putProduct stdRuntime envB idA (bodyReq [("cantidad", .num 5)]) lampStore =
      (⟨200, .product { lamp with cantidad := some 5, updatedAt := 6000 }⟩,
        { lampStore with
          products := lampStore.products.map
            (fun q => if q = lamp then { lamp with cantidad := some 5, updatedAt := 6000 }
              else q) }) :=
  ⟨by decide,
    put_cantidad_only stdRuntime envB idA (bodyReq [("cantidad", .num 5)]) lampStore
      lamp (.num 5) (some 5) (by decide) (by decide) (by decide) rfl rfl rfl⟩

/-! ## Requests on a well-formed id that is not stored -/

/-- An update request on a well-formed id under which nothing is stored: 404
when the update data passes the cast, 400 when it does not. -/
theorem putProduct_not_stored {rt : Runtime} {id : String} {oid : ObjectId} (env : Env)
    (req : Req) (st : Store) (h : rt.castObjectId (.str id) = some oid)
    (hf : findById oid st.products = none) :
    (putProduct rt env id req st).1.status
      = (if updateCasts rt (updateData req (uploadedName env req)) then 404 else 400) ∧
    (putProduct rt env id req st).1.body.hasMessage = true ∧
    (putProduct rt env id req st).2 = (uploadSingle env req st).2 := by
  rw [← uploadSingle_fst env req st]
  cases hu : castUpdate rt (updateData req (uploadSingle env req st).1) with
  | error e =>
    rw [putProduct_castUpdate_error env req st h hu]
    simp [Payload.hasMessage, updateCasts, hu]
  | ok u =>
    rw [putProduct_not_found env req st h hu hf]
    simp [Payload.hasMessage, updateCasts, hu]

/-! ## C4: requests on an id that is not stored -/

/-- C4, as stated, fails: with no product stored under it, the malformed id
`abc` is answered 500 by `DELETE` and 400 by `PUT`, and the well-formed id
`bbbbbbbbbbbbbbbbbbbbbbbb` is answered 400 by a `PUT` whose body gives
`cantidad = "abc"`. -/
theorem unknown_id_not_always_404 :
    (∀ p ∈ lampStore.products, p._id ≠ "abc" ∧ p._id ≠ idB) ∧
    (deleteProduct stdRuntime "abc" lampStore).1.status = 500 ∧
    (putProduct stdRuntime envB "abc" (bodyReq [("cantidad", .str "5")]) lampStore).1.status
      = 400 ∧
    (putProduct stdRuntime envB idB (bodyReq [("cantidad", .str "abc")]) lampStore).1.status
      = 400 := by
  decide

/-- C4, amended: for an id under which no product is stored, `DELETE` answers
404 when the id is a well-formed `ObjectId` and 500 when it is not, `PUT`
answers 404 when the id is well-formed and the update data (the body, with
the `fotoUrl` of an uploaded file) passes the cast that Mongoose makes before
it queries, and 400 otherwise; both bodies carry a `message`, `DELETE` leaves
the store as it was and `PUT` leaves the stored products as they were. -/
theorem unknown_id_responses (rt : Runtime) (env : Env) (id : String) (req : Req) (st : Store)
    (hunk : ∀ oid, rt.castObjectId (.str id) = some oid → ∀ p ∈ st.products, p._id ≠ oid) :
    (deleteProduct rt id st).1.status = (if isObjectId rt id then 404 else 500) ∧
    (deleteProduct rt id st).1.body.hasMessage = true ∧
    (deleteProduct rt id st).2 = st ∧
    (putProduct rt env id req st).1.status
      = (if isObjectId rt id && updateCasts rt (updateData req (uploadedName env req))
          then 404 else 400) ∧
    (putProduct rt env id req st).1.body.hasMessage = true ∧
    (putProduct rt env id req st).2.products = st.products := by
  cases h : rt.castObjectId (.str id) with
  | none =>
    rw [deleteProduct_castId_none st h, putProduct_castId_none env req st h]
    simp [isObjectId, h, Payload.hasMessage, uploadSingle_products]
  | some oid =>
    have hf := findById_eq_none_of_forall (hunk oid h)
    rw [deleteProduct_not_found st h hf]
    obtain ⟨h1, h2, h3⟩ := putProduct_not_stored env req st h hf
    rw [h1, h2, h3]
    simp [isObjectId, h, Payload.hasMessage, uploadSingle_products]

/-- C4, amended, at the store `lampStore` and the well-formed id
`bbbbbbbbbbbbbbbbbbbbbbbb`: both handlers answer 404. -/
theorem unknown_id_responses_witness :
    (deleteProduct stdRuntime idB lampStore).1.status = 404 ∧
    (putProduct stdRuntime envB idB (fileReq [("cantidad", .str "5")]) lampStore).1.status
      = 404 ∧
    (putProduct stdRuntime envB idB (fileReq [("cantidad", .str "5")]) lampStore).2.products
      = lampStore.products := by
  have h := unknown_id_responses stdRuntime envB idB (fileReq [("cantidad", .str "5")]) lampStore
    (by decide)
  exact ⟨h.1, h.2.2.2.1, h.2.2.2.2.2⟩

/-! ## C9: deleting a stored product -/

/-- C9, as stated, fails for the `PUT`: after the `DELETE` of the stored
product, a `PUT` on its id whose body gives `cantidad = "abc"` is answered
400, not 404. -/
theorem put_after_delete_not_always_404 :
    (deleteProduct stdRuntime idA lampStore).1.status = 200 ∧
    (putProduct stdRuntime envB idA (bodyReq [("cantidad", .str "abc")])
      (deleteProduct stdRuntime idA lampStore).2).1.status = 400 := by
  decide

/-- C9, amended: on a store whose ids are distinct, a `DELETE` request on the
id of a stored product `p` is answered 200 with the confirmation message and
leaves the store with exactly the products other than `p`; after it `GET`
returns that list, in which neither `p` nor any product with its id occurs, a
second `DELETE` on the id is answered 404, and a `PUT` on the id is answered
404 when its update data passes the cast that Mongoose makes before it
queries and 400 when it does not, in both cases with a `message`. -/
theorem delete_then_gone (rt : Runtime) (env : Env) (id : String) (req : Req) (st : Store)
    (p : Product) (hids : (st.products.map (fun q => q._id)).Nodup)
    (hp : p ∈ st.products) (hid : rt.castObjectId (.str id) = some p._id) :
    deleteProduct rt id st =
      (⟨200, .message "Producto eliminado exitosamente"⟩,
        { st with products := st.products.filter (fun q => decide (q ≠ p)) }) ∧
    (getProducts (deleteProduct rt id st).2).1
      = ⟨200, .products (st.products.filter (fun q => decide (q ≠ p)))⟩ ∧
    (∀ q ∈ st.products.filter (fun q => decide (q ≠ p)), q ≠ p ∧ q._id ≠ p._id) ∧
    (deleteProduct rt id (deleteProduct rt id st).2).1
      = ⟨404, .message "Producto no encontrado"⟩ ∧
    (putProduct rt env id req (deleteProduct rt id st).2).1.status
      = (if updateCasts rt (updateData req (uploadedName env req)) then 404 else 400) ∧
    (putProduct rt env id req (deleteProduct rt id st).2).1.body.hasMessage = true := by
  have hf := findById_of_mem hids hp
  have hdel := deleteProduct_found st hid hf
  rw [removeOne_eq_filter hids, filter_ne_eq_filter_id hids hp] at hdel
  have hgone : ∀ q ∈ st.products.filter (fun q => decide (q ≠ p)), q ≠ p ∧ q._id ≠ p._id := by
    intro q hq
    rw [List.mem_filter] at hq
    have hqp : q ≠ p := by simpa using hq.2
    exact ⟨hqp, fun e => hqp ((id_eq_iff_of_nodup hids hp hq.1).mp e)⟩
  have hnone : findById p._id (st.products.filter (fun q => decide (q ≠ p))) = none :=
    findById_eq_none_of_forall (fun q hq => (hgone q hq).2)
  rw [hdel]
  refine ⟨rfl, rfl, hgone, ?_, ?_⟩
  · rw [deleteProduct_not_found _ hid hnone]
  · obtain ⟨h1, h2, -⟩ := putProduct_not_stored env req
      { st with products := st.products.filter (fun q => decide (q ≠ p)) } hid hnone
    exact ⟨h1, h2⟩

/-- C9, amended, at the store `lampStore`. -/
theorem delete_then_gone_witness :
    deleteProduct stdRuntime idA lampStore =
      (⟨200, .message "Producto eliminado exitosamente"⟩,
        { lampStore with products := lampStore.products.filter (fun q => decide (q ≠ lamp)) }) ∧
    (deleteProduct stdRuntime idA (deleteProduct stdRuntime idA lampStore).2).1
      = ⟨404, .message "Producto no encontrado"⟩ ∧
    (putProduct stdRuntime envB idA (bodyReq [("cantidad", .str "5")])
      (deleteProduct stdRuntime idA lampStore).2).1.status = 404 := by
  have h := delete_then_gone stdRuntime envB idA (bodyReq [("cantidad", .str "5")]) lampStore
    lamp (by decide) (by decide) (by decide)
  exact ⟨h.1, h.2.2.2.1, h.2.2.2.2.1⟩

/-! ## The create handler, case by case -/

theorem save_ok {rt : Runtime} {env : Env} {codigo fotoUrl : String}
    {nombre descripcion cantidad precio : Option JVal} {db : List Product} {p : Product}
    (h : save rt env codigo nombre descripcion cantidad precio fotoUrl db = .ok p) :
    ∃ n d c pr, castStringField rt nombre = .ok n ∧ castStringField rt descripcion = .ok d ∧
      castNumberField rt cantidad = .ok (some c) ∧
      castNumberField rt precio = .ok (some pr) ∧
      requiredString n = true ∧ requiredString d = true ∧
      requiredString (some fotoUrl) = true ∧
      indexConflict db env.freshId (some codigo) = false ∧
      p = { _id := env.freshId, codigo := some codigo, nombre := n,
            descripcion := d, cantidad := some c,
            precio := some pr, fotoUrl := some fotoUrl,
            createdAt := env.stamp, updatedAt := env.stamp } := by
  unfold save at h
  split at h
  · rename_i n d c pr hn hd hc hpr
    split_ifs at h with hreq hconf
    injection h with h
    simp only [Bool.and_eq_true] at hreq
    obtain ⟨⟨⟨⟨⟨-, hrn⟩, hrd⟩, hcr⟩, hprr⟩, hfo⟩ := hreq
    cases c with
    | none => simp [requiredNumber] at hcr
    | some c =>
      cases pr with
      | none => simp [requiredNumber] at hprr
      | some pr =>
        exact ⟨n, d, c, pr, hn, hd, hc, hpr, hrn, hrd, hfo, by simpa using hconf, h.symm⟩
  · cases h

theorem save_of_valid {rt : Runtime} {env : Env} {codigo fotoUrl : String}
    {nombre descripcion cantidad precio : Option JVal} {db : List Product}
    {n d : Option String} {c pr : JNum}
    (hcn : castStringField rt nombre = .ok n)
    (hcd : castStringField rt descripcion = .ok d)
    (hc : castNumberField rt cantidad = .ok (some c))
    (hpr : castNumberField rt precio = .ok (some pr))
    (hco : requiredString (some codigo) = true)
    (hn : requiredString n = true)
    (hd : requiredString d = true)
    (hfo : requiredString (some fotoUrl) = true)
    (hconf : indexConflict db env.freshId (some codigo) = false) :
    save rt env codigo nombre descripcion cantidad precio fotoUrl db = .ok
      { _id := env.freshId, codigo := some codigo, nombre := n,
        descripcion := d, cantidad := some c,
        precio := some pr, fotoUrl := some fotoUrl,
        createdAt := env.stamp, updatedAt := env.stamp } := by
  unfold save
  rw [hcn, hcd, hc, hpr]
  simp [hco, hn, hd, hfo, hconf, requiredNumber]

theorem postProduct_ok {rt : Runtime} {env : Env} {req : Req} {st : Store} {p : Product}
    (h : save rt env ("PROD-" ++ toString env.now) (field req.body "nombre")
      (field req.body "descripcion") (field req.body "cantidad") (field req.body "precio")
      (createFotoUrl req (uploadSingle env req st).1) st.products = .ok p) :
    postProduct rt env req st =
      (⟨201, .product p⟩,
        { (uploadSingle env req st).2 with products := st.products ++ [p] }) := by
  simp [postProduct, uploadSingle_products, h]

theorem postProduct_error {rt : Runtime} {env : Env} {req : Req} {st : Store} {e : StoreError}
    (h : save rt env ("PROD-" ++ toString env.now) (field req.body "nombre")
      (field req.body "descripcion") (field req.body "cantidad") (field req.body "precio")
      (createFotoUrl req (uploadSingle env req st).1) st.products = .error e) :
    postProduct rt env req st = (⟨400, .errorMessage e⟩, (uploadSingle env req st).2) := by
  simp [postProduct, uploadSingle_products, h]

/-- Every create request ends in one of two ways. -/
theorem postProduct_cases (rt : Runtime) (env : Env) (req : Req) (st : Store) :
    (∃ e, postProduct rt env req st = (⟨400, .errorMessage e⟩, (uploadSingle env req st).2)) ∨
    (∃ p, save rt env ("PROD-" ++ toString env.now) (field req.body "nombre")
        (field req.body "descripcion") (field req.body "cantidad") (field req.body "precio")
        (createFotoUrl req (uploadSingle env req st).1) st.products = .ok p ∧
      postProduct rt env req st =
        (⟨201, .product p⟩,
          { (uploadSingle env req st).2 with products := st.products ++ [p] })) := by
  cases h : save rt env ("PROD-" ++ toString env.now) (field req.body "nombre")
      (field req.body "descripcion") (field req.body "cantidad") (field req.body "precio")
      (createFotoUrl req (uploadSingle env req st).1) st.products with
  | error e => exact Or.inl ⟨e, postProduct_error h⟩
  | ok p => exact Or.inr ⟨p, rfl, postProduct_ok h⟩

theorem requiredString_some {s : String} (h : s ≠ "") : requiredString (some s) = true := by
  have : s.length ≠ 0 := by
    intro h0
    apply h
    cases s with
    | mk l =>
      cases l with
      | nil => rfl
      | cons a l => simp [String.length] at h0
  simpa [requiredString] using this

theorem requiredString_empty : requiredString (some "") = false := by decide

theorem fileUrl_ne_empty (req : Req) (filename : String) : fileUrl req filename ≠ "" := by
  intro h
  have := congrArg String.length h
  simp only [fileUrl, String.length_append] at this
  have h3 : "://".length = 3 := by decide
  have h0 : "".length = 0 := by decide
  omega

theorem requiredString_codigo (now : Nat) :
    requiredString (some ("PROD-" ++ toString now)) = true := by
  apply requiredString_some
  intro h
  have := congrArg String.length h
  simp only [String.length_append] at this
  have h5 : "PROD-".length = 5 := by decide
  have h0 : "".length = 0 := by decide
  omega

/-! ## C5: a create request without a file -/

/-- C5, as stated, fails: the create request that carries name, description,
quantity and price and no file is answered 400 and nothing is stored. -/
theorem post_without_file_fails :
    postProduct stdRuntime envA
        (bodyReq [("nombre", .str "Lamp"), ("descripcion", .str "A lamp"),
          ("cantidad", .str "3"), ("precio", .str "15")]) emptyStore
      = (⟨400, .errorMessage .validationError⟩, emptyStore) := by
  decide

/-- C5, amended: every create request without an uploaded file, whatever its
body, is answered 400 with the message of a validation error, and the store is
unchanged: the empty `fotoUrl` does not pass the `required` validator. -/
theorem post_without_file (rt : Runtime) (env : Env) (req : Req) (st : Store)
    (hfile : req.file = none) :
    postProduct rt env req st = (⟨400, .errorMessage .validationError⟩, st) := by
  have hup := uploadSingle_none env req st hfile
  have hs : save rt env ("PROD-" ++ toString env.now) (field req.body "nombre")
      (field req.body "descripcion") (field req.body "cantidad") (field req.body "precio")
      (createFotoUrl req (uploadSingle env req st).1) st.products
      = .error .validationError := by
    rw [hup]
    simp only [createFotoUrl, save]
    split
    · simp [requiredString_empty]
    · rfl
  rw [postProduct_error hs, hup]

/-- C5, amended, at the empty store. -/
theorem post_without_file_witness :
    (postProduct stdRuntime envA (bodyReq [("nombre", .str "Lamp")]) emptyStore).1.status = 400 ∧
    (postProduct stdRuntime envA (bodyReq [("nombre", .str "Lamp")]) emptyStore).2 = emptyStore := by
  rw [post_without_file stdRuntime envA (bodyReq [("nombre", .str "Lamp")]) emptyStore rfl]
  exact ⟨rfl, rfl⟩

/-! ## C8: a create request with a missing field -/

/-- C8: a create request in which `nombre`, `descripcion`, `cantidad` or
`precio` is absent, or `nombre` or `descripcion` is the empty string, is
answered 400 with a body that carries a `message`, and the stored products are
unchanged. -/
theorem post_missing_field (rt : Runtime) (env : Env) (req : Req) (st : Store)
    (h : field req.body "nombre" = none ∨ field req.body "descripcion" = none ∨
      field req.body "cantidad" = none ∨ field req.body "precio" = none ∨
      field req.body "nombre" = some (.str "") ∨ field req.body "descripcion" = some (.str "")) :
    (postProduct rt env req st).1.status = 400 ∧
    (postProduct rt env req st).1.body.hasMessage = true ∧
    (postProduct rt env req st).2.products = st.products := by
  rcases postProduct_cases rt env req st with ⟨e, he⟩ | ⟨p, hs, -⟩
  · rw [he]
    exact ⟨rfl, rfl, uploadSingle_products env req st⟩
  · exfalso
    obtain ⟨n, d, c, pr, hcn, hcd, hc, hpr, hn, hd, -, -, -⟩ := save_ok hs
    rcases h with h | h | h | h | h | h
    · rw [h] at hcn
      simp only [castStringField] at hcn
      injection hcn with hcn
      subst hcn
      simp [requiredString] at hn
    · rw [h] at hcd
      simp only [castStringField] at hcd
      injection hcd with hcd
      subst hcd
      simp [requiredString] at hd
    · simp [h, castNumberField] at hc
    · simp [h, castNumberField] at hpr
    · rw [h] at hcn
      simp only [castStringField, castString] at hcn
      injection hcn with hcn
      subst hcn
      simp [requiredString_empty] at hn
    · rw [h] at hcd
      simp only [castStringField, castString] at hcd
      injection hcd with hcd
      subst hcd
      simp [requiredString_empty] at hd

/-- C8 at the store `lampStore`: a create request without `precio`. -/
theorem post_missing_field_witness :
    (postProduct stdRuntime envB
      (fileReq [("nombre", .str "Desk"), ("descripcion", .str "A desk"),
        ("cantidad", .str "1")]) lampStore).1.status = 400 ∧
    (postProduct stdRuntime envB
      (fileReq [("nombre", .str "Desk"), ("descripcion", .str "A desk"),
        ("cantidad", .str "1")]) lampStore).2.products = lampStore.products := by
  have h := post_missing_field stdRuntime envB
    (fileReq [("nombre", .str "Desk"), ("descripcion", .str "A desk"),
      ("cantidad", .str "1")]) lampStore (Or.inr (Or.inr (Or.inr (Or.inl rfl))))
  exact ⟨h.1, h.2.2⟩

/-! ## C7: a create request with numeric strings -/

theorem not_indexConflict_of_forall {db : List Product} {id : ObjectId} {c : Option String}
    (h : ∀ p ∈ db, p._id ≠ id ∧ p.codigo ≠ c) : indexConflict db id c = false := by
  unfold indexConflict
  rw [List.any_eq_false]
  intro p hp
  simp [(h p hp).1, (h p hp).2]

theorem forall_of_not_indexConflict {db : List Product} {id : ObjectId} {c : Option String}
    (h : indexConflict db id c = false) : ∀ p ∈ db, p._id ≠ id ∧ p.codigo ≠ c := by
  unfold indexConflict at h
  rw [List.any_eq_false] at h
  intro p hp
  simpa using h p hp

theorem castNumber_str {rt : Runtime} {s : String} {q : JNum} (h0 : s ≠ "")
    (h : rt.toNumber s = some q) : castNumber rt (.str s) = .ok (some q) := by
  simp [castNumber, h0, h]

/-- C7: a create request with an attached file, whose body gives `nombre` and
`descripcion` as non-empty strings and `cantidad` and `precio` as non-empty
strings that `Number` reads as `q` and `pr`, made when no stored product has
the generated `codigo` (nor the fresh `_id`), is answered 201 with a record
whose `cantidad` is `q` and `precio` is `pr`, whose `fotoUrl` is the non-empty
URL of the stored file, and whose `codigo` is `PROD-` followed by the decimal
timestamp; the record is appended to the stored products. -/
theorem post_numeric_strings (rt : Runtime) (env : Env) (req : Req) (st : Store)
    (orig n d qs ps : String) (q pr : JNum)
    (hfile : req.file = some orig)
    (hn : field req.body "nombre" = some (.str n)) (hn0 : n ≠ "")
    (hd : field req.body "descripcion" = some (.str d)) (hd0 : d ≠ "")
    (hq : field req.body "cantidad" = some (.str qs)) (hq0 : qs ≠ "")
    (hqv : rt.toNumber qs = some q)
    (hp : field req.body "precio" = some (.str ps)) (hp0 : ps ≠ "")
    (hpv : rt.toNumber ps = some pr)
    (hfresh : ∀ p ∈ st.products,
      p._id ≠ env.freshId ∧ p.codigo ≠ some ("PROD-" ++ toString env.now)) :
    postProduct rt env req st =
      (⟨201, .product
          { _id := env.freshId, codigo := some ("PROD-" ++ toString env.now),
            nombre := some n, descripcion := some d, cantidad := some q, precio := some pr,
            fotoUrl := some (req.protocol ++ "://" ++ req.host ++ "/uploads/"
              ++ (toString env.uploadTime ++ "-" ++ orig)),
            createdAt := env.stamp, updatedAt := env.stamp }⟩,
        { products := st.products ++
            [{ _id := env.freshId, codigo := some ("PROD-" ++ toString env.now),
               nombre := some n, descripcion := some d, cantidad := some q, precio := some pr,
               fotoUrl := some (req.protocol ++ "://" ++ req.host ++ "/uploads/"
                 ++ (toString env.uploadTime ++ "-" ++ orig)),
               createdAt := env.stamp, updatedAt := env.stamp }],
          uploads := writeFile (toString env.uploadTime ++ "-" ++ orig) st.uploads }) ∧
    req.protocol ++ "://" ++ req.host ++ "/uploads/"
      ++ (toString env.uploadTime ++ "-" ++ orig) ≠ "" := by
  have hup := uploadSingle_some env req st hfile
  refine ⟨?_, fileUrl_ne_empty req (storageFilename env.uploadTime orig)⟩
  have hs := @save_of_valid rt env ("PROD-" ++ toString env.now)
    (createFotoUrl req (uploadSingle env req st).1)
    (field req.body "nombre") (field req.body "descripcion")
    (field req.body "cantidad") (field req.body "precio") st.products (some n) (some d) q pr
    (by rw [hn]; rfl)
    (by rw [hd]; rfl)
    (by rw [hq]; exact castNumber_str hq0 hqv)
    (by rw [hp]; exact castNumber_str hp0 hpv)
    (requiredString_codigo env.now)
    (requiredString_some hn0)
    (requiredString_some hd0)
    (by rw [hup]; exact requiredString_some (fileUrl_ne_empty req _))
    (not_indexConflict_of_forall hfresh)
  rw [postProduct_ok hs, hup]
  rfl

theorem decimalNumber_scenario_precio : decimalNumber "9.99" = some (999 / 100) := by
  rw [show (999 / 100 : ℚ) = (9 : ℚ) + (99 : ℚ) / (10 : ℚ) ^ 2 by norm_num]
  rfl

theorem toNumber_scenario_precio :
    stdRuntime.toNumber "9.99" = some (JNum.fin (999 / 100)) := by
  show (if "9.99" = "Infinity" then some JNum.posInf
    else if "9.99" = "-Infinity" then some JNum.negInf
    else (decimalNumber "9.99").map JNum.fin) = _
  rw [if_neg (by decide), if_neg (by decide), decimalNumber_scenario_precio]
  rfl

/-- C7 at the scenario of the specification: `cantidad = "20"` and
`precio = "9.99"` are stored as the numbers 20 and 9.99. -/
theorem post_numeric_strings_witness :
    postProduct stdRuntime envA widgetReq emptyStore =
      (⟨201, .product
          { _id := idA, codigo := some "PROD-2000",
            nombre := some "Widget", descripcion := some "A widget",
            cantidad := some (JNum.fin 20), precio := some (JNum.fin (999 / 100)),
            fotoUrl := some "http://localhost:5000/uploads/1000-w.png",
            createdAt := 3000, updatedAt := 3000 }⟩,
        { products :=
            [{ _id := idA, codigo := some "PROD-2000",
               nombre := some "Widget", descripcion := some "A widget",
               cantidad := some (JNum.fin 20), precio := some (JNum.fin (999 / 100)),
               fotoUrl := some "http://localhost:5000/uploads/1000-w.png",
               createdAt := 3000, updatedAt := 3000 }],
          uploads := ["1000-w.png"] }) :=
  (post_numeric_strings stdRuntime envA widgetReq emptyStore "w.png" "Widget" "A widget"
    "20" "9.99" (JNum.fin 20) (JNum.fin (999 / 100)) rfl rfl (by decide) rfl (by decide) rfl
    (by decide) (by decide) rfl (by decide) toNumber_scenario_precio
    (fun p hp => absurd hp (List.not_mem_nil p))).1

/-! ## C10: the stored file and `fotoUrl` -/

/-- The stored name depends only on the clock reading and the original name:
a second upload of a file of the same name at the same reading gets the name
of the first and overwrites it, leaving one file (line 45 calls the name
unique). -/
theorem upload_twice_same_name (env : Env) (req : Req) (st : Store) :
    (uploadSingle env req (uploadSingle env req st).2).2 = (uploadSingle env req st).2 := by
  unfold uploadSingle
  cases uploadedName env req with
  | none => rfl
  | some name =>
    have h : writeFile name (writeFile name st.uploads) = writeFile name st.uploads :=
      writeFile_of_mem (mem_writeFile name st.uploads)
    simp [h]

/-- C10, as stated, fails in its last part: an update request without a file
and without a `fotoUrl` field in its body, whose body is
`{"$set": {"fotoUrl": "x"}}`, is answered 200 and the product's `fotoUrl`
becomes `x`. -/
theorem put_set_operator_changes_fotoUrl :
    (bodyReq [("$set", .obj [("fotoUrl", .str "x")])]).file = none ∧
    field (bodyReq [("$set", .obj [("fotoUrl", .str "x")])]).body "fotoUrl" = none ∧
    lampStore.products.map (fun p => p.fotoUrl)
      = [some "http://localhost:5000/uploads/1000-lamp.png"] ∧
    (putProduct stdRuntime envB idA (bodyReq [("$set", .obj [("fotoUrl", .str "x")])])
      lampStore).1.status = 200 ∧
    (putProduct stdRuntime envB idA (bodyReq [("$set", .obj [("fotoUrl", .str "x")])])
      lampStore).2.products.map (fun p => p.fotoUrl) = [some "x"] :=
  ⟨rfl, rfl, by decide, by decide, by decide⟩

/-- C10, amended: for a create or update request that carries a file with
original name `orig`, the file is stored as `<upload time>-<orig>` and the files
stored before keep their names; the product
of a 201 response to the create request is stored and has as `fotoUrl`
`<protocol>://<host>/uploads/<stored name>`; the product of a 200 response to
the update request is stored and, when the body is made only of plain fields,
directly or under `$set`, has that `fotoUrl`, whatever `fotoUrl` the body
gives. For an update request with no file whose body is made only of plain
fields and does not set `fotoUrl`, directly or under `$set`, every stored
product keeps its `fotoUrl`. -/
theorem upload_sets_fotoUrl (rt : Runtime) (env : Env) (req : Req) (st : Store) :
    (∀ orig, req.file = some orig →
      (toString env.uploadTime ++ "-" ++ orig ∈ (postProduct rt env req st).2.uploads ∧
        (∀ f ∈ st.uploads, f ∈ (postProduct rt env req st).2.uploads) ∧
        ∀ p, (postProduct rt env req st).1 = ⟨201, .product p⟩ →
          p.fotoUrl = some (req.protocol ++ "://" ++ req.host ++ "/uploads/"
            ++ (toString env.uploadTime ++ "-" ++ orig)) ∧
          p ∈ (postProduct rt env req st).2.products) ∧
      ∀ id, toString env.uploadTime ++ "-" ++ orig ∈ (putProduct rt env id req st).2.uploads ∧
        (∀ f ∈ st.uploads, f ∈ (putProduct rt env id req st).2.uploads) ∧
        ∀ p, (putProduct rt env id req st).1 = ⟨200, .product p⟩ →
          p ∈ (putProduct rt env id req st).2.products ∧
          (isSimple req.body = true →
            p.fotoUrl = some (req.protocol ++ "://" ++ req.host ++ "/uploads/"
              ++ (toString env.uploadTime ++ "-" ++ orig)))) ∧
    (req.file = none → isSimple req.body = true → setValue req.body "fotoUrl" = none → ∀ id,
      (putProduct rt env id req st).2.products.map (fun p => p.fotoUrl)
        = st.products.map (fun p => p.fotoUrl)) := by
  refine ⟨fun orig hfile => ⟨?_, fun id => ?_⟩, fun hfile hs hkey id => ?_⟩
  · have hup := uploadSingle_some env req st hfile
    have hm := mem_writeFile (storageFilename env.uploadTime orig) st.uploads
    have hsub := subset_writeFile (storageFilename env.uploadTime orig) st.uploads
    rcases postProduct_cases rt env req st with ⟨e, he⟩ | ⟨p, hs, hp⟩
    · rw [he, hup]
      exact ⟨hm, hsub, fun p h => by cases h⟩
    · rw [hp]
      refine ⟨by rw [hup]; exact hm, by rw [hup]; exact hsub, fun p' h => ?_⟩
      injection h with _ h
      injection h with h
      subst h
      obtain ⟨n, d, c, pr, -, -, -, -, -, -, -, -, hp'⟩ := save_ok hs
      refine ⟨?_, by simp⟩
      rw [hp', hup]
      rfl
  · have hup := uploadSingle_some env req st hfile
    have hm := mem_writeFile (storageFilename env.uploadTime orig) st.uploads
    have hsub := subset_writeFile (storageFilename env.uploadTime orig) st.uploads
    rcases putProduct_cases rt env id req st with
      ⟨e, h⟩ | h | ⟨oid, change, p, p', -, hu, hf, hch, -, -, h⟩
    · rw [h, hup]
      exact ⟨hm, hsub, fun p h => by cases h⟩
    · rw [h, hup]
      exact ⟨hm, hsub, fun p h => by cases h⟩
    · rw [h]
      refine ⟨by rw [hup]; exact hm, by rw [hup]; exact hsub, fun p1 h' => ?_⟩
      injection h' with _ h'
      injection h' with h'
      subst h'
      refine ⟨mem_replaceOne_self (findById_some hf).1 (findById_some hf).2, fun hs => ?_⟩
      obtain ⟨u, hcs, rfl⟩ := simple_change hs hu hch
      have hfo := (castSet_ok hcs).2.2.2.2.2.2
      rw [hup] at hfo
      obtain ⟨kvs, hbody, -⟩ := isSimple_obj hs
      have hset : setValue (updateData req (some (storageFilename env.uploadTime orig)))
          "fotoUrl" = some (.str (fileUrl req (storageFilename env.uploadTime orig))) := by
        show setValue (setField "fotoUrl" _ req.body) "fotoUrl" = _
        rw [hbody]
        exact setValue_setField_self _ _ _
      simp only [hset, castStringUpdate, castString] at hfo
      injection hfo with hfo
      simp only [applyUpdate, ← hfo, Option.getD]
      rfl
  · rcases putProduct_cases rt env id req st with
      ⟨e, h⟩ | h | ⟨oid, change, p, p', -, hu, hf, hch, -, -, h⟩
    · rw [h, uploadSingle_products]
    · rw [h, uploadSingle_products]
    · rw [h]
      refine map_replaceOne_of_eq (fun p => p.fotoUrl) hf ?_
      obtain ⟨u, hcs, rfl⟩ := simple_change hs hu hch
      have hfo := (castSet_ok hcs).2.2.2.2.2.2
      rw [uploadSingle_none env req st hfile] at hfo
      have hk : setValue (updateData req none) "fotoUrl" = none := hkey
      rw [hk] at hfo
      simp [applyUpdate, castStringUpdate_none hfo]

/-- C10, amended, at the store `lampStore`: an update with a file and a
`fotoUrl` in the body stores the file and sets the URL of the stored file; an
update of the quantity alone keeps the `fotoUrl`. -/
theorem upload_sets_fotoUrl_witness :
    (putProduct stdRuntime envB idA (fileReq [("fotoUrl", .str "x")]) lampStore).1
      = ⟨200, .product
          { lamp with fotoUrl := some "http://localhost:5000/uploads/4000-new.png",
                      updatedAt := 6000 }⟩ ∧
    ("4000-new.png" ∈
        (putProduct stdRuntime envB idA (fileReq [("fotoUrl", .str "x")]) lampStore).2.uploads ∧
      { lamp with fotoUrl := some "http://localhost:5000/uploads/4000-new.png",
                  updatedAt := 6000 }
        ∈ (putProduct stdRuntime envB idA (fileReq [("fotoUrl", .str "x")])
          lampStore).2.products ∧
      { lamp with fotoUrl := some "http://localhost:5000/uploads/4000-new.png",
                  updatedAt := 6000 }.fotoUrl
        = some "http://localhost:5000/uploads/4000-new.png") ∧
    (putProduct stdRuntime envB idA (bodyReq [("cantidad", .str "5")])
      lampStore).2.products.map (fun p => p.fotoUrl)
        = lampStore.products.map (fun p => p.fotoUrl) := by
  have h1 := ((upload_sets_fotoUrl stdRuntime envB (fileReq [("fotoUrl", .str "x")])
    lampStore).1 "new.png" rfl).2 idA
  have h200 : (putProduct stdRuntime envB idA (fileReq [("fotoUrl", .str "x")]) lampStore).1
      = ⟨200, .product
          { lamp with fotoUrl := some "http://localhost:5000/uploads/4000-new.png",
                      updatedAt := 6000 }⟩ := by decide
  have h2 := h1.2.2 _ h200
  exact ⟨h200, ⟨h1.1, h2.1, h2.2 (by decide)⟩,
    (upload_sets_fotoUrl stdRuntime envB (bodyReq [("cantidad", .str "5")]) lampStore).2
      rfl (by decide) rfl idA⟩

/-! ## C2: the `codigo` of the stored products are distinct -/

theorem codigo_free_of_not_conflict {oid : ObjectId} {p : Product} {c : Option String}
    {db : List Product}
    (hcod : (db.map (fun q => q.codigo)).Nodup) (hf : findById oid db = some p)
    (hc : codigoConflict oid p c db = false) :
    ∀ q ∈ db, q._id ≠ oid → q.codigo ≠ c := by
  obtain ⟨hp, hpid⟩ := findById_some hf
  have hsame : ∀ q ∈ db, q._id ≠ oid → q.codigo ≠ p.codigo := by
    intro q hq hne e
    have := List.inj_on_of_nodup_map hcod hq hp e
    exact hne (this ▸ hpid)
  intro q hq hne
  unfold codigoConflict at hc
  by_cases hcp : c = p.codigo
  · rw [hcp]
    exact hsame q hq hne
  · simp only [hcp, ne_eq, not_false_eq_true, decide_True, Bool.true_and] at hc
    rw [List.any_eq_false] at hc
    have := hc q hq
    simpa [hne] using this

theorem uniqueKeys_postProduct (rt : Runtime) (env : Env) (req : Req) {st : Store}
    (h : UniqueKeys st) : UniqueKeys (postProduct rt env req st).2 := by
  rcases postProduct_cases rt env req st with ⟨e, he⟩ | ⟨p, hs, hp⟩
  · rw [he]
    unfold UniqueKeys
    rw [uploadSingle_products]
    exact h
  · rw [hp]
    obtain ⟨n, d, c, pr, -, -, -, -, -, -, -, hconf, hp'⟩ := save_ok hs
    have hfree := forall_of_not_indexConflict hconf
    have hid : p._id = env.freshId := by rw [hp']
    have hco : p.codigo = some ("PROD-" ++ toString env.now) := by rw [hp']
    constructor
    · show ((st.products ++ [p]).map (fun p => p._id)).Nodup
      rw [List.map_append, List.nodup_append]
      refine ⟨h.1, List.nodup_singleton _, ?_⟩
      intro a ha hb
      simp only [List.map_cons, List.map_nil, List.mem_singleton] at hb
      obtain ⟨q, hq, rfl⟩ := List.mem_map.mp ha
      exact (hfree q hq).1 (hb.trans hid)
    · show ((st.products ++ [p]).map (fun p => p.codigo)).Nodup
      rw [List.map_append, List.nodup_append]
      refine ⟨h.2, List.nodup_singleton _, ?_⟩
      intro a ha hb
      simp only [List.map_cons, List.map_nil, List.mem_singleton] at hb
      obtain ⟨q, hq, rfl⟩ := List.mem_map.mp ha
      exact (hfree q hq).2 (hb.trans hco)

theorem uniqueKeys_putProduct (rt : Runtime) (env : Env) (id : String) (req : Req) {st : Store}
    (h : UniqueKeys st) : UniqueKeys (putProduct rt env id req st).2 := by
  rcases putProduct_cases rt env id req st with
    ⟨e, he⟩ | he | ⟨oid, change, p, p', -, -, hf, -, hi, hc, he⟩
  · rw [he]
    unfold UniqueKeys
    rw [uploadSingle_products]
    exact h
  · rw [he]
    unfold UniqueKeys
    rw [uploadSingle_products]
    exact h
  · rw [he]
    constructor
    · show ((replaceOne oid p' st.products).map (fun p => p._id)).Nodup
      rw [map_replaceOne_of_eq (fun p => p._id) hf hi]
      exact h.1
    · exact nodup_codigo_replaceOne h.1 h.2 (codigo_free_of_not_conflict h.2 hf hc)

theorem uniqueKeys_deleteProduct (rt : Runtime) (id : String) {st : Store}
    (h : UniqueKeys st) : UniqueKeys (deleteProduct rt id st).2 := by
  cases hid : rt.castObjectId (.str id) with
  | none => rw [deleteProduct_castId_none st hid]; exact h
  | some oid =>
    cases hf : findById oid st.products with
    | none => rw [deleteProduct_not_found st hid hf]; exact h
    | some p =>
      rw [deleteProduct_found st hid hf]
      exact ⟨h.1.sublist ((removeOne_sublist oid st.products).map _),
        h.2.sublist ((removeOne_sublist oid st.products).map _)⟩

theorem uniqueKeys_handle (rt : Runtime) (r : Request) {st : Store} (h : UniqueKeys st) :
    UniqueKeys (handle rt r st).2 := by
  cases r with
  | list => exact h
  | create env req => exact uniqueKeys_postProduct rt env req h
  | update env id req => exact uniqueKeys_putProduct rt env id req h
  | delete id => exact uniqueKeys_deleteProduct rt id h

theorem uniqueKeys_run (rt : Runtime) (rs : List Request) :
    ∀ {st : Store}, UniqueKeys st → UniqueKeys (run rt st rs) := by
  induction rs with
  | nil => exact fun h => h
  | cons r rs ih => exact fun h => ih (uniqueKeys_handle rt r h)

theorem uniqueKeys_of_reachable {rt : Runtime} {st : Store} (h : Reachable rt st) :
    UniqueKeys st := by
  obtain ⟨rs, rfl⟩ := h
  exact uniqueKeys_run rt rs ⟨List.nodup_nil, List.nodup_nil⟩

/-- C2: in every store reached from the empty one by a sequence of requests no
two stored products have the same `codigo`; a create request answered 201
returns a product whose `codigo` no stored product had, and appends it; a
create request whose generated `codigo` a stored product has is answered 400
with a `message` and stores nothing. -/
theorem codigo_unique (rt : Runtime) (st : Store) (h : Reachable rt st) :
    (st.products.map (fun p => p.codigo)).Nodup ∧
    ∀ env req,
      (∀ p, (postProduct rt env req st).1 = ⟨201, .product p⟩ →
        (∀ q ∈ st.products, q.codigo ≠ p.codigo) ∧
        (postProduct rt env req st).2.products = st.products ++ [p]) ∧
      ((∃ q ∈ st.products, q.codigo = some ("PROD-" ++ toString env.now)) →
        (postProduct rt env req st).1.status = 400 ∧
        (postProduct rt env req st).1.body.hasMessage = true ∧
        (postProduct rt env req st).2.products = st.products) := by
  refine ⟨(uniqueKeys_of_reachable h).2, fun env req => ?_⟩
  rcases postProduct_cases rt env req st with ⟨e, he⟩ | ⟨p, hs, hp⟩
  · rw [he]
    exact ⟨fun p hp => (by cases hp), fun _ => ⟨rfl, rfl, uploadSingle_products env req st⟩⟩
  · rw [hp]
    obtain ⟨n, d, c, pr, -, -, -, -, -, -, -, hconf, hp'⟩ := save_ok hs
    have hfree := forall_of_not_indexConflict hconf
    have hco : p.codigo = some ("PROD-" ++ toString env.now) := by rw [hp']
    refine ⟨fun p1 h1 => ?_, fun ⟨q, hq, hqc⟩ => absurd hqc (hfree q hq).2⟩
    injection h1 with _ h1
    injection h1 with h1
    subst h1
    exact ⟨fun q hq => by rw [hco]; exact (hfree q hq).2, rfl⟩

/-- C2 at the store after `twoLamps`: the two `codigo` are distinct, and a
create request at the time 5000 is answered 400. -/
theorem codigo_unique_witness :
    ((run stdRuntime emptyStore twoLamps).products.map (fun p => p.codigo)).Nodup ∧
    (postProduct stdRuntime envB lampReq (run stdRuntime emptyStore twoLamps)).1.status = 400 := by
  have h := codigo_unique stdRuntime (run stdRuntime emptyStore twoLamps) ⟨twoLamps, rfl⟩
  exact ⟨h.1, ((h.2 envB lampReq).2 (by decide)).1⟩

/-! ## C6: the quantities and prices that are stored -/

/-- C6, as stated, fails: the create request with `cantidad = "-5"` and
`precio = "-1"` is answered 201 and both numbers are stored. -/
theorem negative_numbers_stored :
    (postProduct stdRuntime envA negativeReq emptyStore).1.status = 201 ∧
    (run stdRuntime emptyStore [.create envA negativeReq]).products.map
      (fun p => (p.cantidad, p.precio)) = [(some (JNum.fin (-5)), some (JNum.fin (-1)))] ∧
    validCantidad (some (JNum.fin (-5))) = false ∧
    validPrecio (some (JNum.fin (-1))) = false := by
  decide

theorem numberFieldOk_create {rt : Runtime} {ok : Option JNum → Bool} {f : Option JVal}
    {c : JNum} (h : numberFieldOk rt ok f = true) (hc : castNumberField rt f = .ok (some c)) :
    ok (some c) = true := by
  cases f with
  | none => simp [castNumberField] at hc
  | some v =>
    simp only [castNumberField] at hc
    simpa [numberFieldOk, hc] using h

theorem numberFieldOk_update {rt : Runtime} {ok : Option JNum → Bool} {f : Option JVal}
    {r : Option (Option JNum)} {old : Option JNum}
    (h : numberFieldOk rt ok f = true) (hc : castNumberUpdate rt f = .ok r)
    (hold : ok old = true) : ok (r.getD old) = true := by
  cases f with
  | none =>
    rw [castNumberUpdate_none hc]
    exact hold
  | some v =>
    simp only [castNumberUpdate] at hc
    cases hv : castNumber rt v with
    | error e => simp [hv] at hc
    | ok q =>
      simp only [hv] at hc
      injection hc with hc
      subst hc
      simpa [numberFieldOk, hv] using h

theorem allValid_iff {st : Store} :
    allValid st = true ↔
      ∀ p ∈ st.products, validCantidad p.cantidad = true ∧ validPrecio p.precio = true := by
  simp [allValid, List.all_eq_true]

theorem allValid_postProduct {rt : Runtime} {env : Env} {req : Req} {st : Store}
    (hreq : (Request.create env req).carriesValid rt = true) (h : allValid st = true) :
    allValid (postProduct rt env req st).2 = true := by
  rw [allValid_iff] at h ⊢
  simp only [Request.carriesValid, Bool.and_eq_true] at hreq
  rcases postProduct_cases rt env req st with ⟨e, he⟩ | ⟨p, hs, hp⟩
  · rw [he, uploadSingle_products]
    exact h
  · rw [hp]
    obtain ⟨n, d, c, pr, -, -, hc, hpr, -, -, -, -, hp'⟩ := save_ok hs
    intro q hq
    rcases List.mem_append.mp hq with hq | hq
    · exact h q hq
    · rw [List.mem_singleton] at hq
      rw [hq, hp']
      exact ⟨numberFieldOk_create hreq.1 hc, numberFieldOk_create hreq.2 hpr⟩

theorem allValid_putProduct {rt : Runtime} {env : Env} {id : String} {req : Req} {st : Store}
    (hreq : (Request.update env id req).carriesValid rt = true) (h : allValid st = true) :
    allValid (putProduct rt env id req st).2 = true := by
  rw [allValid_iff] at h ⊢
  simp only [Request.carriesValid, Bool.and_eq_true] at hreq
  obtain ⟨⟨hs, hqc⟩, hqp⟩ := hreq
  rcases putProduct_cases rt env id req st with
    ⟨e, he⟩ | he | ⟨oid, change, p, p', -, hu, hf, hch, -, -, he⟩
  · rw [he, uploadSingle_products]
    exact h
  · rw [he, uploadSingle_products]
    exact h
  · rw [he]
    intro q hq
    rcases mem_replaceOne hq with hq | hq
    · exact h q hq
    · obtain ⟨u, hcs, rfl⟩ := simple_change hs hu hch
      have hca := (castSet_ok hcs).2.2.2.2.1
      have hpr := (castSet_ok hcs).2.2.2.2.2.1
      rw [setValue_updateData (by decide)] at hca hpr
      have hp := h p (findById_some hf).1
      rw [hq]
      exact ⟨numberFieldOk_update hqc hca hp.1, numberFieldOk_update hqp hpr hp.2⟩

theorem allValid_deleteProduct {rt : Runtime} {id : String} {st : Store}
    (h : allValid st = true) : allValid (deleteProduct rt id st).2 = true := by
  cases hid : rt.castObjectId (.str id) with
  | none => rw [deleteProduct_castId_none st hid]; exact h
  | some oid =>
    cases hf : findById oid st.products with
    | none => rw [deleteProduct_not_found st hid hf]; exact h
    | some p =>
      rw [deleteProduct_found st hid hf]
      rw [allValid_iff] at h ⊢
      exact fun q hq => h q ((removeOne_sublist oid st.products).subset hq)

theorem allValid_handle {rt : Runtime} {r : Request} {st : Store}
    (hr : r.carriesValid rt = true) (h : allValid st = true) :
    allValid (handle rt r st).2 = true := by
  cases r with
  | list => exact h
  | create env req => exact allValid_postProduct hr h
  | update env id req => exact allValid_putProduct hr h
  | delete id => exact allValid_deleteProduct h

/-- C6, amended: in the store reached from the empty one by a sequence of
requests in which every create request carries, if it carries them at all, a
`cantidad` that casts to an integer greater than or equal to 0 and a `precio`
that casts to a number greater than or equal to 0 (or that fail the cast), and
every update request has a body made only of plain fields, directly or under
`$set`, that sets `cantidad` and `precio`, if it sets them at all, to such
values, every stored product has a `cantidad` that is an integer greater than
or equal to 0 and a `precio` that is greater than or equal to 0. -/
theorem valid_numbers_invariant (rt : Runtime) (rs : List Request)
    (h : ∀ r ∈ rs, r.carriesValid rt = true) :
    ∀ p ∈ (run rt emptyStore rs).products,
      validCantidad p.cantidad = true ∧ validPrecio p.precio = true := by
  have key : ∀ (rs : List Request) (st : Store), (∀ r ∈ rs, r.carriesValid rt = true) →
      allValid st = true → allValid (run rt st rs) = true := by
    intro rs
    induction rs with
    | nil => exact fun st _ hst => hst
    | cons r rs ih =>
      intro st hrs hst
      exact ih _ (fun r' hr' => hrs r' (List.mem_cons_of_mem _ hr'))
        (allValid_handle (hrs r (List.mem_cons_self _ _)) hst)
  exact allValid_iff.mp (key rs emptyStore h rfl)

/-- C6, amended, at the store after `twoLamps`. -/
theorem valid_numbers_invariant_witness :
    twoLamps.all (fun r => r.carriesValid stdRuntime) = true ∧
    allValid (run stdRuntime emptyStore twoLamps) = true :=
  ⟨by decide,
    allValid_iff.mpr (valid_numbers_invariant stdRuntime twoLamps (by decide))⟩

end InventarioNeon
